import Mathlib

/-!
# Verification of the sleepy-factory stage scheduler

Shallow embedding of the coordination core of `sleepy_factory`
(`cli.py`, `db/models.py`, `artifacts.py`) and proofs of the spec's
claims about it.

Modelling conventions:
* UTC instants are modelled as natural numbers (seconds); a
  `timedelta(minutes=m)` is `60 * m` seconds.
* The `jobs` table is a `List Job`; `select ... limit n` takes the
  first `n` rows of the list that match the predicate (row order in
  the store is unspecified, the list order stands for it).
* Row locks are not modelled: every embedded operation is one
  committed transaction, executed sequentially.
* `created_at` / `updated_at` (server-maintained timestamps) are
  omitted: no embedded operation reads them.
-/

set_option maxHeartbeats 1600000

/-- `StageStatus` enum from `db/models.py`. -/
inductive StageStatus where
  | NEW
  | READY
  | RUNNING
  | DONE
  | ERROR
  deriving DecidableEq, Fintype, Repr

/-- The four pipeline stages, in order (`STAGES` in `cli.py`). -/
inductive Stage where
  | script
  | audio
  | visuals
  | render
  deriving DecidableEq, Fintype, Repr

/-- `STAGES` list from `cli.py` (stage iteration order). -/
def STAGES : List Stage := [Stage.script, Stage.audio, Stage.visuals, Stage.render]

/-- Position of a stage in the pipeline order. -/
def Stage.idx : Stage → Nat
  | .script => 0
  | .audio => 1
  | .visuals => 2
  | .render => 3

/-- Name of a stage as used in status strings. -/
def Stage.name : Stage → String
  | .script => "script"
  | .audio => "audio"
  | .visuals => "visuals"
  | .render => "render"

/-- Predecessor of a stage in the pipeline (script is its own). -/
def Stage.pred : Stage → Stage
  | .script => .script
  | .audio => .script
  | .visuals => .audio
  | .render => .visuals

/-- One row of the `jobs` table (`Job` model in `db/models.py`). -/
structure Job where
  id : Nat
  script_status : StageStatus
  audio_status : StageStatus
  visuals_status : StageStatus
  render_status : StageStatus
  attempts : Nat
  script_lease_owner : Option String
  script_lease_expires_at : Option Nat
  audio_lease_owner : Option String
  audio_lease_expires_at : Option Nat
  visuals_lease_owner : Option String
  visuals_lease_expires_at : Option Nat
  render_lease_owner : Option String
  render_lease_expires_at : Option Nat
  last_error : Option String
  deriving DecidableEq, Repr

/-- `getattr(job, f"{stage}_status")` (`stage_fields` in `cli.py`). -/
def Job.status (j : Job) : Stage → StageStatus
  | .script => j.script_status
  | .audio => j.audio_status
  | .visuals => j.visuals_status
  | .render => j.render_status

/-- `getattr(job, f"{stage}_lease_owner")`. -/
def Job.leaseOwner (j : Job) : Stage → Option String
  | .script => j.script_lease_owner
  | .audio => j.audio_lease_owner
  | .visuals => j.visuals_lease_owner
  | .render => j.render_lease_owner

/-- `getattr(job, f"{stage}_lease_expires_at")`. -/
def Job.leaseExpiresAt (j : Job) : Stage → Option Nat
  | .script => j.script_lease_expires_at
  | .audio => j.audio_lease_expires_at
  | .visuals => j.visuals_lease_expires_at
  | .render => j.render_lease_expires_at

/-- `setattr(job, f"{stage}_status", v)`. -/
def Job.setStatus (j : Job) : Stage → StageStatus → Job
  | .script, v => { j with script_status := v }
  | .audio, v => { j with audio_status := v }
  | .visuals, v => { j with visuals_status := v }
  | .render, v => { j with render_status := v }

/-- `setattr(job, f"{stage}_lease_owner", v)`. -/
def Job.setLeaseOwner (j : Job) : Stage → Option String → Job
  | .script, v => { j with script_lease_owner := v }
  | .audio, v => { j with audio_lease_owner := v }
  | .visuals, v => { j with visuals_lease_owner := v }
  | .render, v => { j with render_lease_owner := v }

/-- `setattr(job, f"{stage}_lease_expires_at", v)`. -/
def Job.setLeaseExpiresAt (j : Job) : Stage → Option Nat → Job
  | .script, v => { j with script_lease_expires_at := v }
  | .audio, v => { j with audio_lease_expires_at := v }
  | .visuals, v => { j with visuals_lease_expires_at := v }
  | .render, v => { j with render_lease_expires_at := v }

/-- A fresh row as inserted by `Job()`: every mapped column takes the
model default from `db/models.py` (statuses `NEW`, `attempts = 0`,
lease columns and `last_error` null). -/
def Job.defaultRow (id : Nat) : Job :=
  { id := id
    script_status := StageStatus.NEW
    audio_status := StageStatus.NEW
    visuals_status := StageStatus.NEW
    render_status := StageStatus.NEW
    attempts := 0
    script_lease_owner := none
    script_lease_expires_at := none
    audio_lease_owner := none
    audio_lease_expires_at := none
    visuals_lease_owner := none
    visuals_lease_expires_at := none
    render_lease_owner := none
    render_lease_expires_at := none
    last_error := none }

/-- `create_new_job` in `cli.py` (database part): insert a fresh row
and set `job.attempts = 1` before commit. -/
def create_new_job (id : Nat) : Job :=
  { Job.defaultRow id with attempts := 1 }

/-- `Job.new_lease_expiry(now, minutes)` from `db/models.py`:
`now + timedelta(minutes=minutes)`, with instants in seconds. -/
def Job.new_lease_expiry (now : Nat) (minutes : Nat) : Nat :=
  now + 60 * minutes

/-- Predicate of the first orchestrator select: `script_status == NEW`. -/
def scriptCond (j : Job) : Bool :=
  j.script_status == StageStatus.NEW

/-- Predicate of the second orchestrator select:
`script_status == DONE ∧ audio_status == NEW`. -/
def audioCond (j : Job) : Bool :=
  j.script_status == StageStatus.DONE && j.audio_status == StageStatus.NEW

/-- Predicate of the third orchestrator select:
`audio_status == DONE ∧ visuals_status == NEW`. -/
def visualsCond (j : Job) : Bool :=
  j.audio_status == StageStatus.DONE && j.visuals_status == StageStatus.NEW

/-- Predicate of the fourth orchestrator select:
`visuals_status == DONE ∧ render_status == NEW`. -/
def renderCond (j : Job) : Bool :=
  j.visuals_status == StageStatus.DONE && j.render_status == StageStatus.NEW

/-- `job.script_status = StageStatus.READY` in the first tick loop. -/
def promoteScript (j : Job) : Job :=
  { j with script_status := StageStatus.READY }

/-- `job.audio_status = StageStatus.READY` in the second tick loop. -/
def promoteAudio (j : Job) : Job :=
  { j with audio_status := StageStatus.READY }

/-- `job.visuals_status = StageStatus.READY` in the third tick loop. -/
def promoteVisuals (j : Job) : Job :=
  { j with visuals_status := StageStatus.READY }

/-- `job.render_status = StageStatus.READY` in the fourth tick loop. -/
def promoteRender (j : Job) : Job :=
  { j with render_status := StageStatus.READY }

/-- One `select(...).where(cond).limit(limit)` plus the update loop of
`orchestrator_tick`: update the first `limit` rows matching `cond`
with `upd`, returning how many were updated. -/
def promoteUpTo (cond : Job → Bool) (upd : Job → Job) : List Job → Nat → Nat × List Job
  | [], _ => (0, [])
  | j :: rest, limit =>
    if limit = 0 then (0, j :: rest)
    else if cond j then
      let p := promoteUpTo cond upd rest (limit - 1)
      (p.1 + 1, upd j :: p.2)
    else
      let p := promoteUpTo cond upd rest limit
      (p.1, j :: p.2)

/-- `orchestrator_tick` from `cli.py`: four bounded promotion passes
(script unconditional, each later stage gated on its predecessor being
DONE), committed together; returns the number of transitions. -/
def orchestrator_tick (db : List Job) : Nat × List Job :=
  let p1 := promoteUpTo scriptCond promoteScript db 50
  let p2 := promoteUpTo audioCond promoteAudio p1.2 50
  let p3 := promoteUpTo visualsCond promoteVisuals p2.2 50
  let p4 := promoteUpTo renderCond promoteRender p3.2 50
  (p1.1 + p2.1 + p3.1 + p4.1, p4.2)

/-- The mutation block of `claim_one_job_for_stage`: status to RUNNING,
lease owner to the caller's tag, lease expiry to `now + lease`,
`last_error` to null. -/
def claimUpd (stage : Stage) (owner : String) (now lease_minutes : Nat) (j : Job) : Job :=
  { ((j.setStatus stage StageStatus.RUNNING).setLeaseOwner stage (some owner)).setLeaseExpiresAt
      stage (some (Job.new_lease_expiry now lease_minutes)) with
    last_error := none }

/-- `claim_one_job_for_stage` from `cli.py`: select one row with
`<stage>_status = READY` (skip-locked, limit 1), mutate it via
`claimUpd`, commit; `none` and no change when no row matches. -/
def claim_one_job_for_stage (db : List Job) (stage : Stage) (owner : String)
    (now lease_minutes : Nat) : Option Job × List Job :=
  match db with
  | [] => (none, [])
  | j :: rest =>
    if j.status stage = StageStatus.READY then
      let j' := claimUpd stage owner now lease_minutes j
      (some j', j' :: rest)
    else
      let p := claim_one_job_for_stage rest stage owner now lease_minutes
      (p.1, j :: p.2)

/-- Python `error or "unknown error"`: falls back to the default when
the optional string is absent or empty (Python truthiness). -/
def strOr (error : Option String) (d : String) : String :=
  match error with
  | none => d
  | some e => if e = "" then d else e

/-- The mutation block of `complete_job_stage` (`cli.py` lines
417-421): stage status to DONE on success else ERROR, `last_error` to
null on success else `error or "unknown error"`, both lease fields
cleared. -/
def completeUpd (j : Job) (stage : Stage) (success : Bool) (error : Option String) : Job :=
  (({ j.setStatus stage (if success then StageStatus.DONE else StageStatus.ERROR) with
      last_error := if success then none
        else some (strOr error "unknown error") }).setLeaseOwner stage none).setLeaseExpiresAt
    stage none

/-- The compare-and-set body of `complete_job_stage` (`cli.py` lines
411-424), applied to the row found by id: return `false` and leave the
row untouched unless the stage is RUNNING and the lease owner is the
caller; otherwise apply `completeUpd`. -/
def completeJob (j : Job) (owner : String) (stage : Stage) (success : Bool)
    (error : Option String) : Bool × Job :=
  if j.status stage ≠ StageStatus.RUNNING then (false, j)
  else if j.leaseOwner stage ≠ some owner then (false, j)
  else (true, completeUpd j stage success error)

/-- `complete_job_stage` from `cli.py`: select the row by primary key
(`false`, no change, when absent) and run the compare-and-set body on
it. -/
def complete_job_stage (db : List Job) (job_id : Nat) (owner : String) (stage : Stage)
    (success : Bool) (error : Option String) : Bool × List Job :=
  match db with
  | [] => (false, [])
  | j :: rest =>
    if j.id = job_id then
      let p := completeJob j owner stage success error
      (p.1, p.2 :: rest)
    else
      let p := complete_job_stage rest job_id owner stage success error
      (p.1, j :: p.2)

/-- `db.find?` by primary key, as used by `complete_job_stage`. -/
def findJob (db : List Job) (job_id : Nat) : Option Job :=
  db.find? (fun j => j.id == job_id)

/-- One disjunct of the recovery selection predicate:
`<stage>_status = RUNNING ∧ <stage>_lease_expires_at IS NOT NULL ∧
<stage>_lease_expires_at < now`. -/
def stageExpired (now : Nat) (j : Job) (s : Stage) : Bool :=
  j.status s == StageStatus.RUNNING &&
    match j.leaseExpiresAt s with
    | some e => decide (e < now)
    | none => false

/-- The `or_(*conditions)` selection predicate of
`recover_expired_leases`. -/
def jobHasExpiredLease (now : Nat) (j : Job) : Bool :=
  STAGES.any (stageExpired now j)

/-- The reset applied to the first expired RUNNING stage in
`recover_expired_leases`. -/
def resetStage (j : Job) (s : Stage) : Job :=
  { ((j.setStatus s StageStatus.READY).setLeaseOwner s none).setLeaseExpiresAt s none with
    last_error := some ("lease expired, re-queued " ++ s.name) }

/-- The inner `for stage in STAGES` loop of `recover_expired_leases`:
skip stages that are not RUNNING or whose lease is absent or
unexpired; reset the first expired RUNNING stage and break. Returns
whether a reset happened. -/
def recoverJobAux (now : Nat) (j : Job) : List Stage → Bool × Job
  | [] => (false, j)
  | s :: rest =>
    if j.status s ≠ StageStatus.RUNNING then recoverJobAux now j rest
    else
      match j.leaseExpiresAt s with
      | some e => if e < now then (true, resetStage j s) else recoverJobAux now j rest
      | none => recoverJobAux now j rest

/-- Per-job body of `recover_expired_leases` over the ordered stage
list. -/
def recoverJob (now : Nat) (j : Job) : Bool × Job :=
  recoverJobAux now j STAGES

/-- `recover_expired_leases` from `cli.py`: select up to `limit` rows
matching the expired-lease predicate (skip-locked), reset the first
expired RUNNING stage of each, commit, and return the number of
recovered stages. -/
def recover_expired_leases (now : Nat) (limit : Nat) : List Job → Nat × List Job
  | [] => (0, [])
  | j :: rest =>
    if limit = 0 then (0, j :: rest)
    else if jobHasExpiredLease now j then
      let q := recoverJob now j
      let p := recover_expired_leases now (limit - 1) rest
      ((if q.1 then 1 else 0) + p.1, q.2 :: p.2)
    else
      let p := recover_expired_leases now limit rest
      (p.1, j :: p.2)

/-- One scheduler transaction on the jobs table: job creation, one
orchestrator tick, one claim, one complete, or one recovery pass, with
arbitrary parameters. -/
inductive DbStep : List Job → List Job → Prop where
  | create (db : List Job) (id : Nat) : DbStep db (db ++ [create_new_job id])
  | tick (db : List Job) : DbStep db (orchestrator_tick db).2
  | claim (db : List Job) (stage : Stage) (owner : String) (now lease_minutes : Nat) :
      DbStep db (claim_one_job_for_stage db stage owner now lease_minutes).2
  | complete (db : List Job) (job_id : Nat) (owner : String) (stage : Stage)
      (success : Bool) (error : Option String) :
      DbStep db (complete_job_stage db job_id owner stage success error).2
  | recover (db : List Job) (now limit : Nat) :
      DbStep db (recover_expired_leases now limit db).2

/-- Jobs-table states reachable from the empty store by scheduler
transactions (job creation included). -/
inductive Reachable : List Job → Prop where
  | nil : Reachable []
  | step {db db' : List Job} : Reachable db → DbStep db db' → Reachable db'

/-- Invariant 1 of the spec for one job: a stage is RUNNING exactly
when both of its lease fields are present. -/
def bicondJ (j : Job) : Prop :=
  ∀ s : Stage, j.status s = StageStatus.RUNNING ↔
    ((j.leaseOwner s).isSome ∧ (j.leaseExpiresAt s).isSome)

/-- Stage-ordering invariant on a status assignment: a stage beyond
NEW has a DONE predecessor. -/
def chainS (f : Stage → StageStatus) : Prop :=
  (f .audio ≠ StageStatus.NEW → f .script = StageStatus.DONE) ∧
  (f .visuals ≠ StageStatus.NEW → f .audio = StageStatus.DONE) ∧
  (f .render ≠ StageStatus.NEW → f .visuals = StageStatus.DONE)

/-- Point update of a status assignment. -/
def updF (f : Stage → StageStatus) (s : Stage) (v : StageStatus) : Stage → StageStatus :=
  fun t => if t = s then v else f t

/-- Stage-ordering invariant for one job row. -/
def chainJ (j : Job) : Prop :=
  chainS j.status

/-- The inductive invariant of the scheduler: lease biconditional plus
stage ordering, for one job row. -/
def InvJ (j : Job) : Prop :=
  bicondJ j ∧ chainJ j

/-- One record of the per-job `manifest.json` (`ArtifactRecord` in
`artifacts.py`). -/
structure ArtifactRecord where
  stage : String
  kind : String
  relpath : String
  bytes : Nat
  sha256 : String
  created_at : String
  deriving DecidableEq, Repr

/-- `append_manifest` from `artifacts.py`, on the `artifacts` list:
replace the first record with the same relpath, else append. -/
def append_manifest : List ArtifactRecord → ArtifactRecord → List ArtifactRecord
  | [], r => [r]
  | a :: rest, r =>
    if a.relpath = r.relpath then r :: rest else a :: append_manifest rest r

/-- The record built by `write_bytes` in `artifacts.py`: relpath is
the path relative to the job directory in POSIX form (hence a forward
slash), `bytes` the length and `sha256` the digest of the exact bytes
written; the digest function (`hashlib.sha256(...).hexdigest()`) is a
parameter. -/
def write_bytes_record (sha : List Nat → String) (stage filename : String)
    (data : List Nat) (kind : String) : ArtifactRecord :=
  { stage := stage
    kind := kind
    relpath := if stage = "" then filename else stage ++ "/" ++ filename
    bytes := data.length
    sha256 := sha data
    created_at := "" }

/-- Manifest effect of `write_bytes` in `artifacts.py`: append the
record for this write to the manifest, de-duplicating by relpath. -/
def write_bytes_manifest (sha : List Nat → String) (m : List ArtifactRecord)
    (stage filename : String) (data : List Nat) (kind : String) : List ArtifactRecord :=
  append_manifest m (write_bytes_record sha stage filename data kind)

/-- Concrete row used to exercise `complete_job_stage` on an
empty-string error message. -/
def jobRunningScript : Job :=
  { Job.defaultRow 1 with
    attempts := 1
    script_status := StageStatus.RUNNING
    script_lease_owner := some "w"
    script_lease_expires_at := some 600 }

/-- Per-row effect a single orchestrator tick is allowed to have: the
identity on id, attempts, last_error and every lease field, and on
each stage either no status change or a NEW-to-READY promotion whose
predecessor (if any) was DONE. -/
def tickFrame (j j' : Job) : Prop :=
  j'.id = j.id ∧ j'.attempts = j.attempts ∧ j'.last_error = j.last_error ∧
  (∀ s : Stage, j'.leaseOwner s = j.leaseOwner s ∧ j'.leaseExpiresAt s = j.leaseExpiresAt s) ∧
  ∀ s : Stage, j'.status s = j.status s ∨
    (j.status s = StageStatus.NEW ∧ j'.status s = StageStatus.READY ∧
      (s = Stage.script ∨ j.status s.pred = StageStatus.DONE))

/-- Concrete row with `script` READY, used to exercise the claim
operation. -/
def jobReadyScript : Job :=
  { Job.defaultRow 3 with
    attempts := 1
    script_status := StageStatus.READY }

/-- Concrete row with `script` DONE and an expired RUNNING `audio`
lease, used to exercise lease recovery. -/
def jobExpiredAudio : Job :=
  { Job.defaultRow 4 with
    attempts := 1
    script_status := StageStatus.DONE
    audio_status := StageStatus.RUNNING
    audio_lease_owner := some "w2"
    audio_lease_expires_at := some 10 }

set_option maxRecDepth 40000

instance (f : Stage → StageStatus) : Decidable (chainS f) := by
  unfold chainS
  infer_instance

/-! ## Field accessor lemmas -/

@[simp]
theorem Job.status_setStatus (j : Job) (s t : Stage) (v : StageStatus) :
    (j.setStatus s v).status t = if t = s then v else j.status t := by
  cases s <;> cases t <;> simp [Job.setStatus, Job.status]

@[simp]
theorem Job.leaseOwner_setStatus (j : Job) (s t : Stage) (v : StageStatus) :
    (j.setStatus s v).leaseOwner t = j.leaseOwner t := by
  cases s <;> cases t <;> simp [Job.setStatus, Job.leaseOwner]

@[simp]
theorem Job.leaseExpiresAt_setStatus (j : Job) (s t : Stage) (v : StageStatus) :
    (j.setStatus s v).leaseExpiresAt t = j.leaseExpiresAt t := by
  cases s <;> cases t <;> simp [Job.setStatus, Job.leaseExpiresAt]

@[simp]
theorem Job.status_setLeaseOwner (j : Job) (s t : Stage) (v : Option String) :
    (j.setLeaseOwner s v).status t = j.status t := by
  cases s <;> cases t <;> simp [Job.setLeaseOwner, Job.status]

@[simp]
theorem Job.leaseOwner_setLeaseOwner (j : Job) (s t : Stage) (v : Option String) :
    (j.setLeaseOwner s v).leaseOwner t = if t = s then v else j.leaseOwner t := by
  cases s <;> cases t <;> simp [Job.setLeaseOwner, Job.leaseOwner]

@[simp]
theorem Job.leaseExpiresAt_setLeaseOwner (j : Job) (s t : Stage) (v : Option String) :
    (j.setLeaseOwner s v).leaseExpiresAt t = j.leaseExpiresAt t := by
  cases s <;> cases t <;> simp [Job.setLeaseOwner, Job.leaseExpiresAt]

@[simp]
theorem Job.status_setLeaseExpiresAt (j : Job) (s t : Stage) (v : Option Nat) :
    (j.setLeaseExpiresAt s v).status t = j.status t := by
  cases s <;> cases t <;> simp [Job.setLeaseExpiresAt, Job.status]

@[simp]
theorem Job.leaseOwner_setLeaseExpiresAt (j : Job) (s t : Stage) (v : Option Nat) :
    (j.setLeaseExpiresAt s v).leaseOwner t = j.leaseOwner t := by
  cases s <;> cases t <;> simp [Job.setLeaseExpiresAt, Job.leaseOwner]

@[simp]
theorem Job.leaseExpiresAt_setLeaseExpiresAt (j : Job) (s t : Stage) (v : Option Nat) :
    (j.setLeaseExpiresAt s v).leaseExpiresAt t = if t = s then v else j.leaseExpiresAt t := by
  cases s <;> cases t <;> simp [Job.setLeaseExpiresAt, Job.leaseExpiresAt]

@[simp]
theorem Job.attempts_setStatus (j : Job) (s : Stage) (v : StageStatus) :
    (j.setStatus s v).attempts = j.attempts := by
  cases s <;> rfl

@[simp]
theorem Job.id_setStatus (j : Job) (s : Stage) (v : StageStatus) :
    (j.setStatus s v).id = j.id := by
  cases s <;> rfl

@[simp]
theorem Job.lastError_setStatus (j : Job) (s : Stage) (v : StageStatus) :
    (j.setStatus s v).last_error = j.last_error := by
  cases s <;> rfl

@[simp]
theorem Job.attempts_setLeaseOwner (j : Job) (s : Stage) (v : Option String) :
    (j.setLeaseOwner s v).attempts = j.attempts := by
  cases s <;> rfl

@[simp]
theorem Job.id_setLeaseOwner (j : Job) (s : Stage) (v : Option String) :
    (j.setLeaseOwner s v).id = j.id := by
  cases s <;> rfl

@[simp]
theorem Job.lastError_setLeaseOwner (j : Job) (s : Stage) (v : Option String) :
    (j.setLeaseOwner s v).last_error = j.last_error := by
  cases s <;> rfl

@[simp]
theorem Job.attempts_setLeaseExpiresAt (j : Job) (s : Stage) (v : Option Nat) :
    (j.setLeaseExpiresAt s v).attempts = j.attempts := by
  cases s <;> rfl

@[simp]
theorem Job.id_setLeaseExpiresAt (j : Job) (s : Stage) (v : Option Nat) :
    (j.setLeaseExpiresAt s v).id = j.id := by
  cases s <;> rfl

@[simp]
theorem Job.lastError_setLeaseExpiresAt (j : Job) (s : Stage) (v : Option Nat) :
    (j.setLeaseExpiresAt s v).last_error = j.last_error := by
  cases s <;> rfl

@[simp]
theorem Job.status_withLastError (j : Job) (e : Option String) (t : Stage) :
    ({ j with last_error := e } : Job).status t = j.status t := by
  cases t <;> rfl

@[simp]
theorem Job.leaseOwner_withLastError (j : Job) (e : Option String) (t : Stage) :
    ({ j with last_error := e } : Job).leaseOwner t = j.leaseOwner t := by
  cases t <;> rfl

@[simp]
theorem Job.leaseExpiresAt_withLastError (j : Job) (e : Option String) (t : Stage) :
    ({ j with last_error := e } : Job).leaseExpiresAt t = j.leaseExpiresAt t := by
  cases t <;> rfl

/-! ## Stage-ordering invariant: finite case analysis -/

theorem chainS_congr {f g : Stage → StageStatus} (h : ∀ t, f t = g t) :
    chainS f → chainS g :=
  fun hc => funext h ▸ hc

theorem Job.status_setStatus_eq_updF (j : Job) (s : Stage) (v : StageStatus) :
    ∀ t, (j.setStatus s v).status t = updF j.status s v t := by
  intro t
  simp [updF]

theorem chainS_promote : ∀ (f : Stage → StageStatus) (s : Stage),
    chainS f → f s = StageStatus.NEW →
    (s = Stage.script ∨ f s.pred = StageStatus.DONE) →
    chainS (updF f s StageStatus.READY) := by
  decide

theorem chainS_claim : ∀ (f : Stage → StageStatus) (s : Stage),
    chainS f → f s = StageStatus.READY → chainS (updF f s StageStatus.RUNNING) := by
  decide

theorem chainS_complete : ∀ (f : Stage → StageStatus) (s : Stage) (v : StageStatus),
    chainS f → f s = StageStatus.RUNNING →
    (v = StageStatus.DONE ∨ v = StageStatus.ERROR) → chainS (updF f s v) := by
  decide

theorem chainS_recover : ∀ (f : Stage → StageStatus) (s : Stage),
    chainS f → f s = StageStatus.RUNNING → chainS (updF f s StageStatus.READY) := by
  decide

theorem chainS_atMostOne : ∀ (f : Stage → StageStatus), chainS f →
    ∀ s t : Stage, f s = StageStatus.RUNNING → f t = StageStatus.RUNNING → s = t := by
  decide

/-! ## Accessors of the three compound updates -/

@[simp]
theorem claimUpd_status (stage : Stage) (owner : String) (now lm : Nat) (j : Job) (t : Stage) :
    (claimUpd stage owner now lm j).status t =
      if t = stage then StageStatus.RUNNING else j.status t := by
  cases stage <;> cases t <;>
    simp [claimUpd, Job.setStatus, Job.setLeaseOwner, Job.setLeaseExpiresAt, Job.status]

@[simp]
theorem claimUpd_leaseOwner (stage : Stage) (owner : String) (now lm : Nat) (j : Job) (t : Stage) :
    (claimUpd stage owner now lm j).leaseOwner t =
      if t = stage then some owner else j.leaseOwner t := by
  cases stage <;> cases t <;>
    simp [claimUpd, Job.setStatus, Job.setLeaseOwner, Job.setLeaseExpiresAt, Job.leaseOwner]

@[simp]
theorem claimUpd_leaseExpiresAt (stage : Stage) (owner : String) (now lm : Nat) (j : Job)
    (t : Stage) :
    (claimUpd stage owner now lm j).leaseExpiresAt t =
      if t = stage then some (Job.new_lease_expiry now lm) else j.leaseExpiresAt t := by
  cases stage <;> cases t <;>
    simp [claimUpd, Job.setStatus, Job.setLeaseOwner, Job.setLeaseExpiresAt, Job.leaseExpiresAt]

@[simp]
theorem claimUpd_lastError (stage : Stage) (owner : String) (now lm : Nat) (j : Job) :
    (claimUpd stage owner now lm j).last_error = none := by
  cases stage <;> simp [claimUpd, Job.setStatus, Job.setLeaseOwner, Job.setLeaseExpiresAt]

@[simp]
theorem claimUpd_attempts (stage : Stage) (owner : String) (now lm : Nat) (j : Job) :
    (claimUpd stage owner now lm j).attempts = j.attempts := by
  cases stage <;> simp [claimUpd, Job.setStatus, Job.setLeaseOwner, Job.setLeaseExpiresAt]

@[simp]
theorem claimUpd_id (stage : Stage) (owner : String) (now lm : Nat) (j : Job) :
    (claimUpd stage owner now lm j).id = j.id := by
  cases stage <;> simp [claimUpd, Job.setStatus, Job.setLeaseOwner, Job.setLeaseExpiresAt]

@[simp]
theorem completeUpd_status (j : Job) (stage : Stage) (success : Bool) (error : Option String)
    (t : Stage) :
    (completeUpd j stage success error).status t =
      if t = stage then (if success then StageStatus.DONE else StageStatus.ERROR)
      else j.status t := by
  cases stage <;> cases t <;>
    simp [completeUpd, Job.setStatus, Job.setLeaseOwner, Job.setLeaseExpiresAt, Job.status]

@[simp]
theorem completeUpd_leaseOwner (j : Job) (stage : Stage) (success : Bool) (error : Option String)
    (t : Stage) :
    (completeUpd j stage success error).leaseOwner t =
      if t = stage then none else j.leaseOwner t := by
  cases stage <;> cases t <;>
    simp [completeUpd, Job.setStatus, Job.setLeaseOwner, Job.setLeaseExpiresAt, Job.leaseOwner]

@[simp]
theorem completeUpd_leaseExpiresAt (j : Job) (stage : Stage) (success : Bool)
    (error : Option String) (t : Stage) :
    (completeUpd j stage success error).leaseExpiresAt t =
      if t = stage then none else j.leaseExpiresAt t := by
  cases stage <;> cases t <;>
    simp [completeUpd, Job.setStatus, Job.setLeaseOwner, Job.setLeaseExpiresAt, Job.leaseExpiresAt]

@[simp]
theorem completeUpd_lastError (j : Job) (stage : Stage) (success : Bool)
    (error : Option String) :
    (completeUpd j stage success error).last_error =
      if success then none else some (strOr error "unknown error") := by
  cases stage <;> simp [completeUpd, Job.setStatus, Job.setLeaseOwner, Job.setLeaseExpiresAt]

@[simp]
theorem completeUpd_attempts (j : Job) (stage : Stage) (success : Bool)
    (error : Option String) :
    (completeUpd j stage success error).attempts = j.attempts := by
  cases stage <;> simp [completeUpd, Job.setStatus, Job.setLeaseOwner, Job.setLeaseExpiresAt]

@[simp]
theorem completeUpd_id (j : Job) (stage : Stage) (success : Bool) (error : Option String) :
    (completeUpd j stage success error).id = j.id := by
  cases stage <;> simp [completeUpd, Job.setStatus, Job.setLeaseOwner, Job.setLeaseExpiresAt]

@[simp]
theorem resetStage_status (j : Job) (s t : Stage) :
    (resetStage j s).status t = if t = s then StageStatus.READY else j.status t := by
  cases s <;> cases t <;>
    simp [resetStage, Job.setStatus, Job.setLeaseOwner, Job.setLeaseExpiresAt, Job.status]

@[simp]
theorem resetStage_leaseOwner (j : Job) (s t : Stage) :
    (resetStage j s).leaseOwner t = if t = s then none else j.leaseOwner t := by
  cases s <;> cases t <;>
    simp [resetStage, Job.setStatus, Job.setLeaseOwner, Job.setLeaseExpiresAt, Job.leaseOwner]

@[simp]
theorem resetStage_leaseExpiresAt (j : Job) (s t : Stage) :
    (resetStage j s).leaseExpiresAt t = if t = s then none else j.leaseExpiresAt t := by
  cases s <;> cases t <;>
    simp [resetStage, Job.setStatus, Job.setLeaseOwner, Job.setLeaseExpiresAt, Job.leaseExpiresAt]

@[simp]
theorem resetStage_lastError (j : Job) (s : Stage) :
    (resetStage j s).last_error = some ("lease expired, re-queued " ++ s.name) := by
  cases s <;> simp [resetStage, Job.setStatus, Job.setLeaseOwner, Job.setLeaseExpiresAt]

@[simp]
theorem resetStage_attempts (j : Job) (s : Stage) :
    (resetStage j s).attempts = j.attempts := by
  cases s <;> simp [resetStage, Job.setStatus, Job.setLeaseOwner, Job.setLeaseExpiresAt]

@[simp]
theorem resetStage_id (j : Job) (s : Stage) :
    (resetStage j s).id = j.id := by
  cases s <;> simp [resetStage, Job.setStatus, Job.setLeaseOwner, Job.setLeaseExpiresAt]

/-! ## Per-row invariant preservation -/

theorem InvJ_create (id : Nat) : InvJ (create_new_job id) := by
  constructor
  · intro s
    cases s <;>
      simp [create_new_job, Job.defaultRow, Job.status, Job.leaseOwner, Job.leaseExpiresAt]
  · refine ⟨?_, ?_, ?_⟩ <;>
      simp [create_new_job, Job.defaultRow, Job.status]

theorem InvJ_promote (j : Job) (s : Stage) (hI : InvJ j)
    (hNew : j.status s = StageStatus.NEW)
    (hp : s = Stage.script ∨ j.status s.pred = StageStatus.DONE) :
    InvJ (j.setStatus s StageStatus.READY) := by
  obtain ⟨hb, hc⟩ := hI
  constructor
  · intro t
    have hbt := hb t
    by_cases h : t = s
    · subst h
      rw [hNew] at hbt
      simp only [Job.status_setStatus, if_pos rfl, Job.leaseOwner_setStatus,
        Job.leaseExpiresAt_setStatus]
      constructor
      · intro h'
        exact absurd h' (by simp)
      · intro h'
        exact absurd (hbt.mpr h') (by simp)
    · simpa [Job.status_setStatus, h] using hbt
  · exact chainS_congr (fun t => (Job.status_setStatus_eq_updF j s _ t).symm)
      (chainS_promote j.status s hc hNew hp)

theorem InvJ_claimUpd (j : Job) (stage : Stage) (owner : String) (now lm : Nat)
    (hI : InvJ j) (hR : j.status stage = StageStatus.READY) :
    InvJ (claimUpd stage owner now lm j) := by
  obtain ⟨hb, hc⟩ := hI
  constructor
  · intro t
    have hbt := hb t
    by_cases h : t = stage
    · subst h
      simp
    · simpa [h] using hbt
  · refine chainS_congr (fun t => ?_) (chainS_claim j.status stage hc hR)
    simp [updF]

theorem InvJ_completeUpd (j : Job) (stage : Stage) (success : Bool) (error : Option String)
    (hI : InvJ j) (hR : j.status stage = StageStatus.RUNNING) :
    InvJ (completeUpd j stage success error) := by
  obtain ⟨hb, hc⟩ := hI
  constructor
  · intro t
    have hbt := hb t
    by_cases h : t = stage
    · subst h
      cases success <;> simp
    · simpa [h] using hbt
  · refine chainS_congr (fun t => ?_)
      (chainS_complete j.status stage (if success then StageStatus.DONE else StageStatus.ERROR)
        hc hR (by cases success <;> simp))
    simp [updF]

theorem InvJ_completeJob (j : Job) (owner : String) (stage : Stage) (success : Bool)
    (error : Option String) (hI : InvJ j) :
    InvJ (completeJob j owner stage success error).2 := by
  unfold completeJob
  by_cases h1 : j.status stage ≠ StageStatus.RUNNING
  · simpa [h1] using hI
  · by_cases h2 : j.leaseOwner stage ≠ some owner
    · simpa [h1, h2] using hI
    · push_neg at h1
      simpa [h1, h2] using InvJ_completeUpd j stage success error hI h1

theorem InvJ_resetStage (j : Job) (s : Stage) (hI : InvJ j)
    (hR : j.status s = StageStatus.RUNNING) :
    InvJ (resetStage j s) := by
  obtain ⟨hb, hc⟩ := hI
  constructor
  · intro t
    have hbt := hb t
    by_cases h : t = s
    · subst h
      simp
    · simpa [h] using hbt
  · refine chainS_congr (fun t => ?_) (chainS_recover j.status s hc hR)
    simp [updF]

theorem recoverJobAux_cases (now : Nat) (j : Job) :
    ∀ l : List Stage, (recoverJobAux now j l).2 = j ∨
      ∃ s, j.status s = StageStatus.RUNNING ∧ (recoverJobAux now j l).2 = resetStage j s := by
  intro l
  induction l with
  | nil => exact Or.inl rfl
  | cons s rest ih =>
    by_cases h1 : j.status s ≠ StageStatus.RUNNING
    · simpa [recoverJobAux, h1] using ih
    · push_neg at h1
      cases he : j.leaseExpiresAt s with
      | none => simpa [recoverJobAux, h1, he] using ih
      | some e =>
        by_cases hlt : e < now
        · exact Or.inr ⟨s, h1, by simp [recoverJobAux, h1, he, hlt]⟩
        · simpa [recoverJobAux, h1, he, hlt] using ih

theorem InvJ_recoverJob (now : Nat) (j : Job) (hI : InvJ j) :
    InvJ (recoverJob now j).2 := by
  rcases recoverJobAux_cases now j STAGES with h | ⟨s, hR, h⟩
  · rw [recoverJob, h]
    exact hI
  · rw [recoverJob, h]
    exact InvJ_resetStage j s hI hR

/-! ## Unfolding equations for the list recursions -/

theorem promoteUpTo_nil (cond : Job → Bool) (upd : Job → Job) (limit : Nat) :
    promoteUpTo cond upd [] limit = (0, []) := rfl

theorem promoteUpTo_zero (cond : Job → Bool) (upd : Job → Job) (j : Job) (rest : List Job) :
    promoteUpTo cond upd (j :: rest) 0 = (0, j :: rest) := rfl

theorem promoteUpTo_cons_pos (cond : Job → Bool) (upd : Job → Job) (j : Job) (rest : List Job)
    (k : Nat) (hc : cond j = true) :
    promoteUpTo cond upd (j :: rest) (k + 1) =
      ((promoteUpTo cond upd rest k).1 + 1, upd j :: (promoteUpTo cond upd rest k).2) := by
  simp [promoteUpTo, hc]

theorem promoteUpTo_cons_neg (cond : Job → Bool) (upd : Job → Job) (j : Job) (rest : List Job)
    (k : Nat) (hc : cond j = false) :
    promoteUpTo cond upd (j :: rest) (k + 1) =
      ((promoteUpTo cond upd rest (k + 1)).1, j :: (promoteUpTo cond upd rest (k + 1)).2) := by
  simp [promoteUpTo, hc]

theorem claim_cons_ready (db : List Job) (stage : Stage) (owner : String) (now lm : Nat)
    (j : Job) (h : j.status stage = StageStatus.READY) :
    claim_one_job_for_stage (j :: db) stage owner now lm =
      (some (claimUpd stage owner now lm j), claimUpd stage owner now lm j :: db) := by
  simp [claim_one_job_for_stage, h]

theorem claim_cons_not (db : List Job) (stage : Stage) (owner : String) (now lm : Nat)
    (j : Job) (h : ¬ j.status stage = StageStatus.READY) :
    claim_one_job_for_stage (j :: db) stage owner now lm =
      ((claim_one_job_for_stage db stage owner now lm).1,
        j :: (claim_one_job_for_stage db stage owner now lm).2) := by
  simp [claim_one_job_for_stage, h]

theorem complete_cons_id (db : List Job) (job_id : Nat) (owner : String) (stage : Stage)
    (success : Bool) (error : Option String) (j : Job) (h : j.id = job_id) :
    complete_job_stage (j :: db) job_id owner stage success error =
      ((completeJob j owner stage success error).1,
        (completeJob j owner stage success error).2 :: db) := by
  simp [complete_job_stage, h]

theorem complete_cons_nid (db : List Job) (job_id : Nat) (owner : String) (stage : Stage)
    (success : Bool) (error : Option String) (j : Job) (h : ¬ j.id = job_id) :
    complete_job_stage (j :: db) job_id owner stage success error =
      ((complete_job_stage db job_id owner stage success error).1,
        j :: (complete_job_stage db job_id owner stage success error).2) := by
  simp [complete_job_stage, h]

theorem recover_zero (now : Nat) (j : Job) (rest : List Job) :
    recover_expired_leases now 0 (j :: rest) = (0, j :: rest) := rfl

theorem recover_cons_sel (now k : Nat) (j : Job) (rest : List Job)
    (h : jobHasExpiredLease now j = true) :
    recover_expired_leases now (k + 1) (j :: rest) =
      ((if (recoverJob now j).1 then 1 else 0) + (recover_expired_leases now k rest).1,
        (recoverJob now j).2 :: (recover_expired_leases now k rest).2) := by
  simp [recover_expired_leases, h]

theorem recover_cons_not (now k : Nat) (j : Job) (rest : List Job)
    (h : jobHasExpiredLease now j = false) :
    recover_expired_leases now (k + 1) (j :: rest) =
      ((recover_expired_leases now (k + 1) rest).1,
        j :: (recover_expired_leases now (k + 1) rest).2) := by
  simp [recover_expired_leases, h]

/-! ## List-level shape of each transaction -/

theorem forall2_mem_right {α β : Type} {R : α → β → Prop} :
    ∀ {l1 : List α} {l2 : List β}, List.Forall₂ R l1 l2 → ∀ b ∈ l2, ∃ a ∈ l1, R a b := by
  intro l1 l2 h
  induction h with
  | nil => simp
  | cons hr _ ih =>
    intro b hb
    rcases List.mem_cons.mp hb with rfl | hb'
    · exact ⟨_, List.mem_cons_self _ _, hr⟩
    · obtain ⟨a, ha, hab⟩ := ih b hb'
      exact ⟨a, List.mem_cons_of_mem _ ha, hab⟩

theorem forall2_trans {α β γ : Type} {R : α → β → Prop} {S : β → γ → Prop}
    {T : α → γ → Prop} (h : ∀ a b c, R a b → S b c → T a c) :
    ∀ {l1 : List α} {l2 : List β} {l3 : List γ},
      List.Forall₂ R l1 l2 → List.Forall₂ S l2 l3 → List.Forall₂ T l1 l3 := by
  intro l1 l2 l3 h12
  induction h12 generalizing l3 with
  | nil =>
    intro h23
    cases h23
    exact List.Forall₂.nil
  | cons hr _ ih =>
    intro h23
    cases h23 with
    | cons hs ht => exact List.Forall₂.cons (h _ _ _ hr hs) (ih ht)

theorem forall2_refl_of {α : Type} {R : α → α → Prop} (h : ∀ a, R a a) :
    ∀ l : List α, List.Forall₂ R l l := by
  intro l
  induction l with
  | nil => exact List.Forall₂.nil
  | cons a rest ih => exact List.Forall₂.cons (h a) ih

theorem promoteUpTo_shape (cond : Job → Bool) (upd : Job → Job) :
    ∀ (db : List Job) (limit : Nat),
      List.Forall₂ (fun j j' => j' = j ∨ (cond j = true ∧ j' = upd j)) db
        (promoteUpTo cond upd db limit).2 := by
  intro db
  induction db with
  | nil =>
    intro limit
    exact List.Forall₂.nil
  | cons j rest ih =>
    intro limit
    cases limit with
    | zero =>
      rw [promoteUpTo_zero]
      exact forall2_refl_of (fun (a : Job) => Or.inl rfl) (j :: rest)
    | succ k =>
      by_cases hc : cond j
      · rw [promoteUpTo_cons_pos cond upd j rest k hc]
        exact List.Forall₂.cons (Or.inr ⟨hc, rfl⟩) (ih k)
      · rw [promoteUpTo_cons_neg cond upd j rest k (by simpa using hc)]
        exact List.Forall₂.cons (Or.inl rfl) (ih (k + 1))

theorem claim_shape (stage : Stage) (owner : String) (now lm : Nat) :
    ∀ db : List Job,
      List.Forall₂ (fun j j' => j' = j ∨
          (j.status stage = StageStatus.READY ∧ j' = claimUpd stage owner now lm j)) db
        (claim_one_job_for_stage db stage owner now lm).2 := by
  intro db
  induction db with
  | nil => exact List.Forall₂.nil
  | cons j rest ih =>
    by_cases h : j.status stage = StageStatus.READY
    · rw [claim_cons_ready rest stage owner now lm j h]
      exact List.Forall₂.cons (Or.inr ⟨h, rfl⟩)
        (forall2_refl_of (fun (a : Job) => Or.inl rfl) rest)
    · rw [claim_cons_not rest stage owner now lm j h]
      exact List.Forall₂.cons (Or.inl rfl) ih

theorem complete_shape (job_id : Nat) (owner : String) (stage : Stage) (success : Bool)
    (error : Option String) :
    ∀ db : List Job,
      List.Forall₂ (fun j j' => j' = j ∨ j' = (completeJob j owner stage success error).2) db
        (complete_job_stage db job_id owner stage success error).2 := by
  intro db
  induction db with
  | nil => exact List.Forall₂.nil
  | cons j rest ih =>
    by_cases h : j.id = job_id
    · rw [complete_cons_id rest job_id owner stage success error j h]
      exact List.Forall₂.cons (Or.inr rfl)
        (forall2_refl_of (fun (a : Job) => Or.inl rfl) rest)
    · rw [complete_cons_nid rest job_id owner stage success error j h]
      exact List.Forall₂.cons (Or.inl rfl) ih

theorem recover_shape (now : Nat) :
    ∀ (limit : Nat) (db : List Job),
      List.Forall₂ (fun j j' => j' = j ∨
          (jobHasExpiredLease now j = true ∧ j' = (recoverJob now j).2)) db
        (recover_expired_leases now limit db).2 := by
  intro limit db
  induction db generalizing limit with
  | nil => exact List.Forall₂.nil
  | cons j rest ih =>
    cases limit with
    | zero =>
      rw [recover_zero]
      exact forall2_refl_of (fun (a : Job) => Or.inl rfl) (j :: rest)
    | succ k =>
      by_cases hs : jobHasExpiredLease now j
      · rw [recover_cons_sel now k j rest hs]
        exact List.Forall₂.cons (Or.inr ⟨hs, rfl⟩) (ih k)
      · rw [recover_cons_not now k j rest (by simpa using hs)]
        exact List.Forall₂.cons (Or.inl rfl) (ih (k + 1))

/-! ## Invariant preservation over the whole table -/

theorem scriptCond_status {j : Job} (h : scriptCond j = true) :
    j.status Stage.script = StageStatus.NEW := by
  simpa [scriptCond, Job.status] using h

theorem audioCond_status {j : Job} (h : audioCond j = true) :
    j.status Stage.script = StageStatus.DONE ∧ j.status Stage.audio = StageStatus.NEW := by
  simpa [audioCond, Job.status] using h

theorem visualsCond_status {j : Job} (h : visualsCond j = true) :
    j.status Stage.audio = StageStatus.DONE ∧ j.status Stage.visuals = StageStatus.NEW := by
  simpa [visualsCond, Job.status] using h

theorem renderCond_status {j : Job} (h : renderCond j = true) :
    j.status Stage.visuals = StageStatus.DONE ∧ j.status Stage.render = StageStatus.NEW := by
  simpa [renderCond, Job.status] using h

theorem InvJ_promoteScript (j : Job) (hI : InvJ j) (hc : scriptCond j = true) :
    InvJ (promoteScript j) :=
  InvJ_promote j Stage.script hI (scriptCond_status hc) (Or.inl rfl)

theorem InvJ_promoteAudio (j : Job) (hI : InvJ j) (hc : audioCond j = true) :
    InvJ (promoteAudio j) :=
  InvJ_promote j Stage.audio hI (audioCond_status hc).2 (Or.inr (audioCond_status hc).1)

theorem InvJ_promoteVisuals (j : Job) (hI : InvJ j) (hc : visualsCond j = true) :
    InvJ (promoteVisuals j) :=
  InvJ_promote j Stage.visuals hI (visualsCond_status hc).2 (Or.inr (visualsCond_status hc).1)

theorem InvJ_promoteRender (j : Job) (hI : InvJ j) (hc : renderCond j = true) :
    InvJ (promoteRender j) :=
  InvJ_promote j Stage.render hI (renderCond_status hc).2 (Or.inr (renderCond_status hc).1)

theorem InvDb_promoteUpTo (cond : Job → Bool) (upd : Job → Job)
    (hpres : ∀ j, InvJ j → cond j = true → InvJ (upd j)) (db : List Job) (limit : Nat)
    (hdb : ∀ j ∈ db, InvJ j) : ∀ j' ∈ (promoteUpTo cond upd db limit).2, InvJ j' := by
  intro j' hj'
  obtain ⟨j, hj, hR⟩ := forall2_mem_right (promoteUpTo_shape cond upd db limit) j' hj'
  rcases hR with rfl | ⟨hc, rfl⟩
  · exact hdb _ hj
  · exact hpres j (hdb j hj) hc

theorem InvDb_tick (db : List Job) (hdb : ∀ j ∈ db, InvJ j) :
    ∀ j' ∈ (orchestrator_tick db).2, InvJ j' := by
  have h1 := InvDb_promoteUpTo scriptCond promoteScript InvJ_promoteScript db 50 hdb
  have h2 := InvDb_promoteUpTo audioCond promoteAudio InvJ_promoteAudio _ 50 h1
  have h3 := InvDb_promoteUpTo visualsCond promoteVisuals InvJ_promoteVisuals _ 50 h2
  have h4 := InvDb_promoteUpTo renderCond promoteRender InvJ_promoteRender _ 50 h3
  exact h4

theorem InvDb_claim (db : List Job) (stage : Stage) (owner : String) (now lm : Nat)
    (hdb : ∀ j ∈ db, InvJ j) :
    ∀ j' ∈ (claim_one_job_for_stage db stage owner now lm).2, InvJ j' := by
  intro j' hj'
  obtain ⟨j, hj, hR⟩ := forall2_mem_right (claim_shape stage owner now lm db) j' hj'
  rcases hR with rfl | ⟨hready, rfl⟩
  · exact hdb _ hj
  · exact InvJ_claimUpd j stage owner now lm (hdb j hj) hready

theorem InvDb_complete (db : List Job) (job_id : Nat) (owner : String) (stage : Stage)
    (success : Bool) (error : Option String) (hdb : ∀ j ∈ db, InvJ j) :
    ∀ j' ∈ (complete_job_stage db job_id owner stage success error).2, InvJ j' := by
  intro j' hj'
  obtain ⟨j, hj, hR⟩ :=
    forall2_mem_right (complete_shape job_id owner stage success error db) j' hj'
  rcases hR with rfl | rfl
  · exact hdb _ hj
  · exact InvJ_completeJob j owner stage success error (hdb j hj)

theorem InvDb_recover (db : List Job) (now limit : Nat) (hdb : ∀ j ∈ db, InvJ j) :
    ∀ j' ∈ (recover_expired_leases now limit db).2, InvJ j' := by
  intro j' hj'
  obtain ⟨j, hj, hR⟩ := forall2_mem_right (recover_shape now limit db) j' hj'
  rcases hR with rfl | ⟨_, rfl⟩
  · exact hdb _ hj
  · exact InvJ_recoverJob now j (hdb j hj)

theorem InvDb_step {db db' : List Job} (h : DbStep db db') (hdb : ∀ j ∈ db, InvJ j) :
    ∀ j' ∈ db', InvJ j' := by
  cases h with
  | create id =>
    intro j' hj'
    rcases List.mem_append.mp hj' with hj' | hj'
    · exact hdb j' hj'
    · rw [List.mem_singleton.mp hj']
      exact InvJ_create id
  | tick => exact InvDb_tick db hdb
  | claim stage owner now lm => exact InvDb_claim db stage owner now lm hdb
  | complete job_id owner stage success error =>
    exact InvDb_complete db job_id owner stage success error hdb
  | recover now limit => exact InvDb_recover db now limit hdb

theorem Inv_reachable {db : List Job} (h : Reachable db) : ∀ j ∈ db, InvJ j := by
  induction h with
  | nil => simp
  | step _ hstep ih => exact InvDb_step hstep ih

/-! ## Attempts-preservation helpers -/

theorem completeJob_snd_attempts (j : Job) (owner : String) (stage : Stage) (success : Bool)
    (error : Option String) :
    (completeJob j owner stage success error).2.attempts = j.attempts := by
  unfold completeJob
  by_cases h1 : j.status stage ≠ StageStatus.RUNNING
  · simp [h1]
  · by_cases h2 : j.leaseOwner stage ≠ some owner
    · simp [h1, h2]
    · simp [h1, h2]

theorem recoverJob_snd_attempts (now : Nat) (j : Job) :
    (recoverJob now j).2.attempts = j.attempts := by
  rcases recoverJobAux_cases now j STAGES with h | ⟨s, _, h⟩
  · unfold recoverJob
    rw [h]
  · unfold recoverJob
    rw [h]
    simp

theorem tick_attempts (db : List Job) :
    List.Forall₂ (fun j j' => j'.attempts = j.attempts) db (orchestrator_tick db).2 := by
  have attOf : ∀ (cond : Job → Bool) (upd : Job → Job),
      (∀ a : Job, (upd a).attempts = a.attempts) →
      ∀ (l : List Job) (k : Nat),
        List.Forall₂ (fun j j' => j'.attempts = j.attempts) l (promoteUpTo cond upd l k).2 := by
    intro cond upd hupd l k
    refine (promoteUpTo_shape cond upd l k).imp ?_
    intro a b hab
    rcases hab with rfl | ⟨_, rfl⟩
    · rfl
    · exact hupd a
  have e1 := attOf scriptCond promoteScript (fun a => rfl) db 50
  have e2 := attOf audioCond promoteAudio (fun a => rfl)
    (promoteUpTo scriptCond promoteScript db 50).2 50
  have e3 := attOf visualsCond promoteVisuals (fun a => rfl)
    (promoteUpTo audioCond promoteAudio (promoteUpTo scriptCond promoteScript db 50).2 50).2 50
  have e4 := attOf renderCond promoteRender (fun a => rfl)
    (promoteUpTo visualsCond promoteVisuals
      (promoteUpTo audioCond promoteAudio
        (promoteUpTo scriptCond promoteScript db 50).2 50).2 50).2 50
  have t12 := forall2_trans
    (T := fun (a c : Job) => c.attempts = a.attempts)
    (fun a b c hab hbc => hbc.trans hab) e1 e2
  have t13 := forall2_trans
    (T := fun (a c : Job) => c.attempts = a.attempts)
    (fun a b c hab hbc => hbc.trans hab) t12 e3
  exact forall2_trans
    (T := fun (a c : Job) => c.attempts = a.attempts)
    (fun a b c hab hbc => hbc.trans hab) t13 e4

/-! ## Claim C2 -/

/-- C2: in every job state reachable from job creation by orchestrator
ticks, claims, completes and lease recoveries, each stage's status is
RUNNING exactly when both its lease owner and its lease expiry are
present. -/
theorem running_iff_lease_present {db : List Job} (h : Reachable db) :
    ∀ j ∈ db, ∀ s : Stage, j.status s = StageStatus.RUNNING ↔
      ((j.leaseOwner s).isSome ∧ (j.leaseExpiresAt s).isSome) :=
  fun j hj => (Inv_reachable h j hj).1

/-- Witness for C2: the biconditional evaluated on a freshly created
job in a concretely reachable one-row table. -/
theorem running_iff_lease_present_witness :
    (create_new_job 0).status Stage.script = StageStatus.RUNNING ↔
      (((create_new_job 0).leaseOwner Stage.script).isSome ∧
        ((create_new_job 0).leaseExpiresAt Stage.script).isSome) :=
  running_iff_lease_present (Reachable.step Reachable.nil (DbStep.create [] 0))
    (create_new_job 0) (by simp) Stage.script

/-! ## Claim C3 -/

/-- C3: in every reachable job state, at most one of the four stages
of any job is RUNNING. -/
theorem at_most_one_running {db : List Job} (h : Reachable db) :
    ∀ j ∈ db, ∀ s t : Stage, j.status s = StageStatus.RUNNING →
      j.status t = StageStatus.RUNNING → s = t :=
  fun j hj => chainS_atMostOne j.status (Inv_reachable h j hj).2

/-- Witness for C3: applied to the job of a concretely reachable table
in which the script stage has been claimed (created, ticked, then
claimed), so both RUNNING hypotheses are discharged on a real row. -/
theorem at_most_one_running_witness : Stage.script = Stage.script := by
  have r1 : Reachable ([] ++ [create_new_job 0]) :=
    Reachable.step Reachable.nil (DbStep.create [] 0)
  have r2 : Reachable (orchestrator_tick ([] ++ [create_new_job 0])).2 :=
    Reachable.step r1 (DbStep.tick ([] ++ [create_new_job 0]))
  have r3 := Reachable.step r2
    (DbStep.claim (orchestrator_tick ([] ++ [create_new_job 0])).2 Stage.script "w" 0 10)
  exact at_most_one_running r3
    (claimUpd Stage.script "w" 0 10 (promoteScript (create_new_job 0)))
    (by decide) Stage.script Stage.script (by decide) (by decide)

/-! ## Claim C7 -/

/-- C7: on a freshly created job the orchestrator tick returns 1 and
moves script from NEW to READY; a second tick returns 0 and leaves the
state of the first tick unchanged. -/
theorem tick_idempotent_on_fresh_job (id : Nat) :
    orchestrator_tick [create_new_job id] =
      (1, [{ create_new_job id with script_status := StageStatus.READY }]) ∧
    orchestrator_tick [{ create_new_job id with script_status := StageStatus.READY }] =
      (0, [{ create_new_job id with script_status := StageStatus.READY }]) :=
  ⟨rfl, rfl⟩

/-- Witness for C7 at a concrete job id. -/
theorem tick_idempotent_on_fresh_job_witness :
    orchestrator_tick [create_new_job 0] =
      (1, [{ create_new_job 0 with script_status := StageStatus.READY }]) :=
  (tick_idempotent_on_fresh_job 0).1

/-! ## Claim C10 -/

/-- C10: when the compare-and-set checks of the complete operation
pass and it is invoked with `success = false` and no error string, the
stage status becomes ERROR and `last_error` becomes the literal
"unknown error"; a passing failed completion never leaves `last_error`
absent, whatever the error argument. -/
theorem complete_failure_default_error (j : Job) (owner : String) (stage : Stage)
    (h1 : j.status stage = StageStatus.RUNNING) (h2 : j.leaseOwner stage = some owner) :
    (completeJob j owner stage false none).1 = true ∧
    (completeJob j owner stage false none).2.status stage = StageStatus.ERROR ∧
    (completeJob j owner stage false none).2.last_error = some "unknown error" ∧
    ∀ error : Option String, ((completeJob j owner stage false error).2.last_error).isSome := by
  have hJ : ∀ error : Option String,
      completeJob j owner stage false error = (true, completeUpd j stage false error) := by
    intro error
    unfold completeJob
    simp [h1, h2]
  refine ⟨by rw [hJ], by rw [hJ]; simp, by rw [hJ]; simp [strOr], ?_⟩
  intro error
  rw [hJ]
  simp

/-- Witness for C10 on a concrete RUNNING row whose lease is held by
the caller. -/
theorem complete_failure_default_error_witness :
    (completeJob jobRunningScript "w" Stage.script false none).2.last_error =
      some "unknown error" :=
  (complete_failure_default_error jobRunningScript "w" Stage.script (by decide)
    (by decide)).2.2.1

/-! ## Claim C8 -/

/-- C8: job creation yields a row with all four stage statuses NEW,
both lease fields absent for every stage, and `attempts = 1`; and no
scheduler operation — tick, claim, complete or lease recovery — ever
changes `attempts` of any row. -/
theorem create_shape_and_attempts_never_change :
    (∀ id : Nat,
      (∀ s : Stage, (create_new_job id).status s = StageStatus.NEW ∧
        (create_new_job id).leaseOwner s = none ∧
        (create_new_job id).leaseExpiresAt s = none) ∧
      (create_new_job id).attempts = 1) ∧
    (∀ db : List Job,
      List.Forall₂ (fun j j' => j'.attempts = j.attempts) db (orchestrator_tick db).2) ∧
    (∀ (db : List Job) (stage : Stage) (owner : String) (now lm : Nat),
      List.Forall₂ (fun j j' => j'.attempts = j.attempts) db
        (claim_one_job_for_stage db stage owner now lm).2) ∧
    (∀ (db : List Job) (job_id : Nat) (owner : String) (stage : Stage) (success : Bool)
        (error : Option String),
      List.Forall₂ (fun j j' => j'.attempts = j.attempts) db
        (complete_job_stage db job_id owner stage success error).2) ∧
    (∀ (db : List Job) (now limit : Nat),
      List.Forall₂ (fun j j' => j'.attempts = j.attempts) db
        (recover_expired_leases now limit db).2) := by
  refine ⟨?_, tick_attempts, ?_, ?_, ?_⟩
  · intro id
    constructor
    · intro s
      cases s <;>
        simp [create_new_job, Job.defaultRow, Job.status, Job.leaseOwner, Job.leaseExpiresAt]
    · rfl
  · intro db stage owner now lm
    refine (claim_shape stage owner now lm db).imp ?_
    intro a b hab
    rcases hab with rfl | ⟨_, rfl⟩
    · rfl
    · simp
  · intro db job_id owner stage success error
    refine (complete_shape job_id owner stage success error db).imp ?_
    intro a b hab
    rcases hab with rfl | rfl
    · rfl
    · exact completeJob_snd_attempts a owner stage success error
  · intro db now limit
    refine (recover_shape now limit db).imp ?_
    intro a b hab
    rcases hab with rfl | ⟨_, rfl⟩
    · rfl
    · exact recoverJob_snd_attempts now a

/-- Witness for C8 at a concrete job id. -/
theorem create_shape_and_attempts_never_change_witness :
    (create_new_job 7).attempts = 1 :=
  (create_shape_and_attempts_never_change.1 7).2

/-! ## Claim C1 -/

/-- C1 counterexample: with the stage RUNNING and the lease held by
the caller, completing with `success = false` and the error string ""
passes the compare-and-set but records `last_error = "unknown error"`,
not the error string "" the claim prescribes (`error or "unknown
error"` in Python treats the empty string as falsy). -/
theorem complete_empty_error_string_counterexample :
    (complete_job_stage [jobRunningScript] 1 "w" Stage.script false (some "")).1 = true ∧
    (complete_job_stage [jobRunningScript] 1 "w" Stage.script false (some "")).2.map
        Job.last_error = [some "unknown error"] ∧
    ¬ (complete_job_stage [jobRunningScript] 1 "w" Stage.script false (some "")).2.map
        Job.last_error = [some ""] := by
  refine ⟨?_, ?_, ?_⟩ <;> decide

/-- C1 (amended): the complete operation returns true exactly when the
job row exists, the stage's status is RUNNING and the stage's lease
owner equals the caller's tag; on true it replaces exactly that row,
setting the stage status to DONE if success else ERROR, `last_error`
to none on success and on failure to the error string when it is
present and nonempty (else to "unknown error"), and clearing both of
the stage's lease fields while leaving every other field and stage
untouched; on false the table is left entirely unchanged. -/
theorem complete_job_stage_spec (db : List Job) (job_id : Nat) (owner : String)
    (stage : Stage) (success : Bool) (error : Option String) :
    ((complete_job_stage db job_id owner stage success error).1 = true ↔
      ∃ j, findJob db job_id = some j ∧ j.status stage = StageStatus.RUNNING ∧
        j.leaseOwner stage = some owner) ∧
    ((complete_job_stage db job_id owner stage success error).1 = false →
      (complete_job_stage db job_id owner stage success error).2 = db) ∧
    ((complete_job_stage db job_id owner stage success error).1 = true →
      ∃ pre j suf, db = pre ++ j :: suf ∧ (∀ k ∈ pre, k.id ≠ job_id) ∧ j.id = job_id ∧
        j.status stage = StageStatus.RUNNING ∧ j.leaseOwner stage = some owner ∧
        (complete_job_stage db job_id owner stage success error).2 =
          pre ++ completeUpd j stage success error :: suf) ∧
    (∀ j : Job,
      (completeUpd j stage success error).status stage =
        (if success then StageStatus.DONE else StageStatus.ERROR) ∧
      (completeUpd j stage success error).last_error =
        (if success then none else some (strOr error "unknown error")) ∧
      (completeUpd j stage success error).leaseOwner stage = none ∧
      (completeUpd j stage success error).leaseExpiresAt stage = none ∧
      (completeUpd j stage success error).attempts = j.attempts ∧
      (completeUpd j stage success error).id = j.id ∧
      ∀ t : Stage, t ≠ stage →
        (completeUpd j stage success error).status t = j.status t ∧
        (completeUpd j stage success error).leaseOwner t = j.leaseOwner t ∧
        (completeUpd j stage success error).leaseExpiresAt t = j.leaseExpiresAt t) := by
  have heffects : ∀ j : Job,
      (completeUpd j stage success error).status stage =
        (if success then StageStatus.DONE else StageStatus.ERROR) ∧
      (completeUpd j stage success error).last_error =
        (if success then none else some (strOr error "unknown error")) ∧
      (completeUpd j stage success error).leaseOwner stage = none ∧
      (completeUpd j stage success error).leaseExpiresAt stage = none ∧
      (completeUpd j stage success error).attempts = j.attempts ∧
      (completeUpd j stage success error).id = j.id ∧
      ∀ t : Stage, t ≠ stage →
        (completeUpd j stage success error).status t = j.status t ∧
        (completeUpd j stage success error).leaseOwner t = j.leaseOwner t ∧
        (completeUpd j stage success error).leaseExpiresAt t = j.leaseExpiresAt t := by
    intro j
    refine ⟨by simp, by simp, by simp, by simp, by simp, by simp, ?_⟩
    intro t ht
    exact ⟨by simp [ht], by simp [ht], by simp [ht]⟩
  induction db with
  | nil =>
    refine ⟨?_, ?_, ?_, heffects⟩
    · simp [complete_job_stage, findJob]
    · intro
      rfl
    · intro h
      exact absurd h (by simp [complete_job_stage])
  | cons j rest ih =>
    by_cases hid : j.id = job_id
    · by_cases h1 : j.status stage = StageStatus.RUNNING
      · by_cases h2 : j.leaseOwner stage = some owner
        · have hcj : completeJob j owner stage success error =
              (true, completeUpd j stage success error) := by
            unfold completeJob
            simp [h1, h2]
          rw [complete_cons_id rest job_id owner stage success error j hid, hcj]
          refine ⟨?_, ?_, ?_, heffects⟩
          · exact iff_of_true rfl ⟨j, by simp [findJob, List.find?, hid], h1, h2⟩
          · intro h
            exact absurd h (by simp)
          · intro _
            exact ⟨[], j, rest, rfl, by simp, hid, h1, h2, rfl⟩
        · have hcj : completeJob j owner stage success error = (false, j) := by
            unfold completeJob
            simp [h1, h2]
          rw [complete_cons_id rest job_id owner stage success error j hid, hcj]
          refine ⟨?_, ?_, ?_, heffects⟩
          · refine iff_of_false (by simp) ?_
            rintro ⟨j', hfind, hrun, hown⟩
            rw [show findJob (j :: rest) job_id = some j by
              simp [findJob, List.find?, hid]] at hfind
            cases hfind
            exact h2 hown
          · intro
            rfl
          · intro h
            exact absurd h (by simp)
      · have hcj : completeJob j owner stage success error = (false, j) := by
          unfold completeJob
          simp [h1]
        rw [complete_cons_id rest job_id owner stage success error j hid, hcj]
        refine ⟨?_, ?_, ?_, heffects⟩
        · refine iff_of_false (by simp) ?_
          rintro ⟨j', hfind, hrun, hown⟩
          rw [show findJob (j :: rest) job_id = some j by
            simp [findJob, List.find?, hid]] at hfind
          cases hfind
          exact h1 hrun
        · intro
          rfl
        · intro h
          exact absurd h (by simp)
    · obtain ⟨ih1, ih2, ih3, _⟩ := ih
      rw [complete_cons_nid rest job_id owner stage success error j hid]
      have hfind : findJob (j :: rest) job_id = findJob rest job_id := by
        have hb : (j.id == job_id) = false := by simpa using hid
        simp [findJob, List.find?, hb]
      refine ⟨?_, ?_, ?_, heffects⟩
      · rw [hfind]
        exact ih1
      · intro h
        rw [ih2 h]
      · intro h
        obtain ⟨pre, jj, suf, hdb, hpre, hjid, hrun, hown, heq⟩ := ih3 h
        refine ⟨j :: pre, jj, suf, by simp [hdb], ?_, hjid, hrun, hown, by simp [heq]⟩
        intro k hk
        rcases List.mem_cons.mp hk with rfl | hk'
        · exact hid
        · exact hpre k hk'

/-- Witness for C1 (amended): on a row whose script stage is READY
(not RUNNING) the compare-and-set fails and the table is returned
unchanged. -/
theorem complete_job_stage_spec_witness :
    (complete_job_stage [jobReadyScript] 3 "w" Stage.script true none).2 =
      [jobReadyScript] :=
  (complete_job_stage_spec [jobReadyScript] 3 "w" Stage.script true none).2.1 (by decide)

/-! ## Claim C5 -/

/-- C5: the claim operation selects at most one row with the stage
READY; when none exists it returns none and changes nothing; when it
succeeds it replaces exactly one READY row (the first), setting the
stage status to RUNNING, the stage's lease owner to the caller's tag,
the stage's lease expiry to now plus the lease duration (600 seconds
for the default 10 minutes), and `last_error` to none, leaving every
other field and row unchanged. -/
theorem claim_one_job_spec (db : List Job) (stage : Stage) (owner : String) (now lm : Nat) :
    ((claim_one_job_for_stage db stage owner now lm).1 = none →
      (claim_one_job_for_stage db stage owner now lm).2 = db ∧
      ∀ j ∈ db, j.status stage ≠ StageStatus.READY) ∧
    (∀ j', (claim_one_job_for_stage db stage owner now lm).1 = some j' →
      ∃ pre j suf, db = pre ++ j :: suf ∧
        (∀ k ∈ pre, k.status stage ≠ StageStatus.READY) ∧
        j.status stage = StageStatus.READY ∧
        j' = claimUpd stage owner now lm j ∧
        (claim_one_job_for_stage db stage owner now lm).2 = pre ++ j' :: suf ∧
        j'.status stage = StageStatus.RUNNING ∧
        j'.leaseOwner stage = some owner ∧
        j'.leaseExpiresAt stage = some (Job.new_lease_expiry now lm) ∧
        j'.last_error = none ∧
        j'.attempts = j.attempts ∧ j'.id = j.id ∧
        (∀ t : Stage, t ≠ stage → j'.status t = j.status t ∧
          j'.leaseOwner t = j.leaseOwner t ∧ j'.leaseExpiresAt t = j.leaseExpiresAt t)) ∧
    Job.new_lease_expiry now 10 = now + 600 := by
  induction db with
  | nil =>
    refine ⟨fun _ => ⟨rfl, by simp⟩, ?_, rfl⟩
    intro j' hj'
    exact absurd hj' (by simp [claim_one_job_for_stage])
  | cons j rest ih =>
    by_cases h : j.status stage = StageStatus.READY
    · rw [claim_cons_ready rest stage owner now lm j h]
      refine ⟨?_, ?_, rfl⟩
      · intro hnone
        exact absurd hnone (by simp)
      · intro j' hj'
        have hj'' : j' = claimUpd stage owner now lm j := by
          simpa using hj'.symm
        subst hj''
        refine ⟨[], j, rest, rfl, by simp, h, rfl, rfl, by simp, by simp, by simp, by simp,
          by simp, by simp, ?_⟩
        intro t ht
        exact ⟨by simp [ht], by simp [ht], by simp [ht]⟩
    · rw [claim_cons_not rest stage owner now lm j h]
      obtain ⟨ih1, ih2, _⟩ := ih
      refine ⟨?_, ?_, rfl⟩
      · intro hnone
        obtain ⟨heq, hall⟩ := ih1 hnone
        refine ⟨by rw [heq], ?_⟩
        intro k hk
        rcases List.mem_cons.mp hk with rfl | hk'
        · exact h
        · exact hall k hk'
      · intro j' hj'
        obtain ⟨pre, jj, suf, hdb, hpre, hready, hupd, heq, hrest⟩ := ih2 j' hj'
        refine ⟨j :: pre, jj, suf, by simp [hdb], ?_, hready, hupd, by simp [heq], hrest⟩
        intro k hk
        rcases List.mem_cons.mp hk with rfl | hk'
        · exact h
        · exact hpre k hk'

/-- Witness for C5: on a table with no READY row for `audio`, the
claim returns none and the table is unchanged. -/
theorem claim_one_job_spec_witness :
    (claim_one_job_for_stage [jobReadyScript] Stage.audio "w" 0 10).2 = [jobReadyScript] ∧
    ∀ j ∈ [jobReadyScript], j.status Stage.audio ≠ StageStatus.READY :=
  (claim_one_job_spec [jobReadyScript] Stage.audio "w" 0 10).1 (by decide)

/-! ## Claim C4 -/

theorem stageExpired_iff (now : Nat) (j : Job) (s : Stage) :
    stageExpired now j s = true ↔
      (j.status s = StageStatus.RUNNING ∧ ∃ e, j.leaseExpiresAt s = some e ∧ e < now) := by
  unfold stageExpired
  cases he : j.leaseExpiresAt s with
  | none => simp [he]
  | some e => simp [he]

theorem recoverJobAux_cons_expired (now : Nat) (j : Job) (s : Stage) (rest : List Stage)
    (h : stageExpired now j s = true) :
    recoverJobAux now j (s :: rest) = (true, resetStage j s) := by
  obtain ⟨hrun, e, he, hlt⟩ := (stageExpired_iff now j s).mp h
  simp [recoverJobAux, hrun, he, hlt]

theorem recoverJobAux_cons_skip (now : Nat) (j : Job) (s : Stage) (rest : List Stage)
    (h : stageExpired now j s = false) :
    recoverJobAux now j (s :: rest) = recoverJobAux now j rest := by
  have h' : ¬ (j.status s = StageStatus.RUNNING ∧
      ∃ e, j.leaseExpiresAt s = some e ∧ e < now) := by
    intro hc
    rw [(stageExpired_iff now j s).mpr hc] at h
    cases h
  by_cases hrun : j.status s = StageStatus.RUNNING
  · cases he : j.leaseExpiresAt s with
    | none => simp [recoverJobAux, hrun, he]
    | some e =>
      have hnlt : ¬ e < now := fun hlt => h' ⟨hrun, e, he, hlt⟩
      simp [recoverJobAux, hrun, he, hnlt]
  · simp [recoverJobAux, hrun]

theorem recoverJob_spec (now : Nat) (j : Job) (h : jobHasExpiredLease now j = true) :
    (recoverJob now j).1 = true ∧
    ∃ s : Stage, stageExpired now j s = true ∧
      (∀ t : Stage, t.idx < s.idx → stageExpired now j t = false) ∧
      (recoverJob now j).2 = resetStage j s := by
  have hany : stageExpired now j Stage.script = true ∨ stageExpired now j Stage.audio = true ∨
      stageExpired now j Stage.visuals = true ∨ stageExpired now j Stage.render = true := by
    simpa [jobHasExpiredLease, STAGES] using h
  unfold recoverJob STAGES
  by_cases h1 : stageExpired now j Stage.script = true
  · rw [recoverJobAux_cons_expired now j Stage.script _ h1]
    exact ⟨rfl, Stage.script, h1, fun t ht => by cases t <;> simp [Stage.idx] at ht, rfl⟩
  · have h1' : stageExpired now j Stage.script = false := by simpa using h1
    rw [recoverJobAux_cons_skip now j Stage.script _ h1']
    by_cases h2 : stageExpired now j Stage.audio = true
    · rw [recoverJobAux_cons_expired now j Stage.audio _ h2]
      refine ⟨rfl, Stage.audio, h2, ?_, rfl⟩
      intro t ht
      cases t <;> simp [Stage.idx] at ht
      exact h1'
    · have h2' : stageExpired now j Stage.audio = false := by simpa using h2
      rw [recoverJobAux_cons_skip now j Stage.audio _ h2']
      by_cases h3 : stageExpired now j Stage.visuals = true
      · rw [recoverJobAux_cons_expired now j Stage.visuals _ h3]
        refine ⟨rfl, Stage.visuals, h3, ?_, rfl⟩
        intro t ht
        cases t <;> simp [Stage.idx] at ht
        · exact h1'
        · exact h2'
      · have h3' : stageExpired now j Stage.visuals = false := by simpa using h3
        rw [recoverJobAux_cons_skip now j Stage.visuals _ h3']
        have h4 : stageExpired now j Stage.render = true := by
          rcases hany with hh | hh | hh | hh
          · exact absurd hh h1
          · exact absurd hh h2
          · exact absurd hh h3
          · exact hh
        rw [recoverJobAux_cons_expired now j Stage.render _ h4]
        refine ⟨rfl, Stage.render, h4, ?_, rfl⟩
        intro t ht
        cases t <;> simp [Stage.idx] at ht
        · exact h1'
        · exact h2'
        · exact h3'

theorem recoverJob_changes (now : Nat) (j : Job) (h : jobHasExpiredLease now j = true) :
    (recoverJob now j).1 = true ∧ (recoverJob now j).2 ≠ j := by
  obtain ⟨hret, s, hexp, _, heq⟩ := recoverJob_spec now j h
  refine ⟨hret, ?_⟩
  intro hcontra
  have hrun : j.status s = StageStatus.RUNNING := ((stageExpired_iff now j s).mp hexp).1
  have : (recoverJob now j).2.status s = StageStatus.READY := by
    rw [heq]
    simp
  rw [hcontra, hrun] at this
  cases this

theorem zip_self_countP_ne (l : List Job) :
    ((l.zip l).countP fun p => decide (p.1 ≠ p.2)) = 0 := by
  induction l with
  | nil => rfl
  | cons a rest ih => simpa [List.countP_cons] using ih

theorem recover_count (now : Nat) :
    ∀ (limit : Nat) (db : List Job),
      (recover_expired_leases now limit db).1 =
        ((db.zip (recover_expired_leases now limit db).2).countP
          fun p => decide (p.1 ≠ p.2)) := by
  intro limit db
  induction db generalizing limit with
  | nil => rfl
  | cons j rest ih =>
    cases limit with
    | zero =>
      rw [recover_zero]
      exact (zip_self_countP_ne (j :: rest)).symm
    | succ k =>
      by_cases hs : jobHasExpiredLease now j
      · rw [recover_cons_sel now k j rest hs]
        obtain ⟨hret, hne⟩ := recoverJob_changes now j hs
        simp only [hret, if_pos rfl, List.zip_cons_cons, List.countP_cons, ih k]
        have : (decide (j ≠ (recoverJob now j).2)) = true := by
          simp [hne.symm]
        rw [this]
        simp
        omega
      · rw [recover_cons_not now k j rest (by simpa using hs)]
        simp only [List.zip_cons_cons, List.countP_cons, ih (k + 1)]
        simp

/-- C4: one recovery pass; each selected row (a job with some RUNNING
stage whose non-null lease expiry is strictly before now) is replaced
by resetting exactly the first such stage in script-audio-visuals-
render order — its status becomes READY, its lease fields become
absent, and `last_error` becomes "lease expired, re-queued <stage>" —
all other stages and fields of the row are unchanged, at most one
stage per job is reset, unselected rows are untouched, and the pass
returns the number of stages it reset. -/
theorem recover_expired_leases_spec (now limit : Nat) (db : List Job) :
    List.Forall₂ (fun j j' => j' = j ∨
        (jobHasExpiredLease now j = true ∧ j' = (recoverJob now j).2)) db
      (recover_expired_leases now limit db).2 ∧
    (recover_expired_leases now limit db).1 =
      ((db.zip (recover_expired_leases now limit db).2).countP
        fun p => decide (p.1 ≠ p.2)) ∧
    ∀ j : Job, jobHasExpiredLease now j = true →
      ∃ s : Stage, j.status s = StageStatus.RUNNING ∧
        (∃ e, j.leaseExpiresAt s = some e ∧ e < now) ∧
        (∀ t : Stage, t.idx < s.idx → stageExpired now j t = false) ∧
        (recoverJob now j).2 = resetStage j s ∧
        (resetStage j s).status s = StageStatus.READY ∧
        (resetStage j s).leaseOwner s = none ∧
        (resetStage j s).leaseExpiresAt s = none ∧
        (resetStage j s).last_error = some ("lease expired, re-queued " ++ s.name) ∧
        (resetStage j s).attempts = j.attempts ∧
        (resetStage j s).id = j.id ∧
        ∀ t : Stage, t ≠ s → (resetStage j s).status t = j.status t ∧
          (resetStage j s).leaseOwner t = j.leaseOwner t ∧
          (resetStage j s).leaseExpiresAt t = j.leaseExpiresAt t := by
  refine ⟨recover_shape now limit db, recover_count now limit db, ?_⟩
  intro j hj
  obtain ⟨_, s, hexp, hfirst, heq⟩ := recoverJob_spec now j hj
  obtain ⟨hrun, he⟩ := (stageExpired_iff now j s).mp hexp
  refine ⟨s, hrun, he, hfirst, heq, by simp, by simp, by simp, by simp, by simp, by simp, ?_⟩
  intro t ht
  exact ⟨by simp [ht], by simp [ht], by simp [ht]⟩

/-- Witness for C4: the count conjunct evaluated on a one-row table
with an expired audio lease. -/
theorem recover_expired_leases_spec_witness :
    (recover_expired_leases 100 50 [jobExpiredAudio]).1 =
      (([jobExpiredAudio].zip (recover_expired_leases 100 50 [jobExpiredAudio]).2).countP
        fun p => decide (p.1 ≠ p.2)) :=
  (recover_expired_leases_spec 100 50 [jobExpiredAudio]).2.1

/-! ## Claim C9 -/

theorem filter_append_manifest (rp : String) (r : ArtifactRecord) (hr : r.relpath = rp) :
    ∀ m : List ArtifactRecord, ((m.filter fun a => a.relpath == rp).length ≤ 1) →
      ((append_manifest m r).filter fun a => a.relpath == rp) = [r] := by
  intro m
  induction m with
  | nil =>
    intro _
    simp [append_manifest, hr]
  | cons a rest ih =>
    intro hm
    by_cases ha : a.relpath = r.relpath
    · have haRp : (a.relpath == rp) = true := by
        simp [ha, hr]
      have hsplit : ((a :: rest).filter fun x => x.relpath == rp) =
          a :: (rest.filter fun x => x.relpath == rp) := by
        simp [List.filter_cons, haRp]
      rw [hsplit] at hm
      have hrest : (rest.filter fun x => x.relpath == rp) = [] := by
        have hlen : (rest.filter fun x => x.relpath == rp).length = 0 := by
          simp only [List.length_cons] at hm
          omega
        exact List.length_eq_zero.mp hlen
      simp [append_manifest, ha, List.filter_cons, hr, hrest]
    · have haRp : (a.relpath == rp) = false := by
        rw [← hr]
        simpa using ha
      have hm' : ((rest.filter fun x => x.relpath == rp).length ≤ 1) := by
        simpa [List.filter_cons, haRp] using hm
      simp [append_manifest, ha, List.filter_cons, haRp]
      exact ih hm'

/-- C9: writing an artifact at a relpath and writing again at the same
relpath leaves exactly one manifest record for that relpath, and it is
the record of the second write: its `bytes` is the length and its
`sha256` the digest of the exact bytes of the second write; the
recorded relpath joins stage and filename with a forward slash. -/
theorem manifest_dedup_spec (sha : List Nat → String) (m : List ArtifactRecord)
    (stage filename kind1 kind2 : String) (data1 data2 : List Nat)
    (hm : ((m.filter fun a =>
        a.relpath == (if stage = "" then filename else stage ++ "/" ++ filename)).length ≤ 1)) :
    ((write_bytes_manifest sha (write_bytes_manifest sha m stage filename data1 kind1)
        stage filename data2 kind2).filter fun a =>
          a.relpath == (if stage = "" then filename else stage ++ "/" ++ filename)) =
      [write_bytes_record sha stage filename data2 kind2] ∧
    (write_bytes_record sha stage filename data2 kind2).bytes = data2.length ∧
    (write_bytes_record sha stage filename data2 kind2).sha256 = sha data2 ∧
    (stage ≠ "" → (write_bytes_record sha stage filename data2 kind2).relpath =
      stage ++ "/" ++ filename) := by
  refine ⟨?_, rfl, rfl, ?_⟩
  · have h1 := filter_append_manifest
      (if stage = "" then filename else stage ++ "/" ++ filename)
      (write_bytes_record sha stage filename data1 kind1) rfl m hm
    have h2 := filter_append_manifest
      (if stage = "" then filename else stage ++ "/" ++ filename)
      (write_bytes_record sha stage filename data2 kind2) rfl
      (append_manifest m (write_bytes_record sha stage filename data1 kind1))
      (by rw [h1]; simp)
    exact h2
  · intro hs
    simp [write_bytes_record, hs]

/-- Witness for C9: two writes of one byte each to
`script/script.md`, starting from an empty manifest. -/
theorem manifest_dedup_spec_witness :
    ((write_bytes_manifest (fun _ => "d")
        (write_bytes_manifest (fun _ => "d") [] "script" "script.md" [65] "script_markdown")
        "script" "script.md" [66] "script_markdown").filter fun a =>
          a.relpath == (if "script" = "" then "script.md"
            else "script" ++ "/" ++ "script.md")) =
      [write_bytes_record (fun _ => "d") "script" "script.md" [66] "script_markdown"] :=
  (manifest_dedup_spec (fun _ => "d") [] "script" "script.md" "script_markdown"
    "script_markdown" [65] [66] (by decide)).1

/-! ## Claim C6: per-pass facts and per-row frame -/

theorem pass1_facts {j a : Job}
    (h : a = j ∨ (scriptCond j = true ∧ a = promoteScript j)) :
    a.audio_status = j.audio_status ∧ a.visuals_status = j.visuals_status ∧
    a.render_status = j.render_status ∧ a.id = j.id ∧ a.attempts = j.attempts ∧
    a.last_error = j.last_error ∧
    (∀ t : Stage, a.leaseOwner t = j.leaseOwner t ∧ a.leaseExpiresAt t = j.leaseExpiresAt t) ∧
    (a.script_status = j.script_status ∨
      (j.script_status = StageStatus.NEW ∧ a.script_status = StageStatus.READY)) := by
  rcases h with rfl | ⟨hc, rfl⟩
  · exact ⟨rfl, rfl, rfl, rfl, rfl, rfl, fun t => ⟨rfl, rfl⟩, Or.inl rfl⟩
  · have hcc : j.script_status = StageStatus.NEW := by
      simpa [scriptCond] using hc
    exact ⟨rfl, rfl, rfl, rfl, rfl, rfl,
      fun t => ⟨by cases t <;> rfl, by cases t <;> rfl⟩, Or.inr ⟨hcc, rfl⟩⟩

theorem pass2_facts {a b : Job}
    (h : b = a ∨ (audioCond a = true ∧ b = promoteAudio a)) :
    b.script_status = a.script_status ∧ b.visuals_status = a.visuals_status ∧
    b.render_status = a.render_status ∧ b.id = a.id ∧ b.attempts = a.attempts ∧
    b.last_error = a.last_error ∧
    (∀ t : Stage, b.leaseOwner t = a.leaseOwner t ∧ b.leaseExpiresAt t = a.leaseExpiresAt t) ∧
    (b.audio_status = a.audio_status ∨
      (a.script_status = StageStatus.DONE ∧ a.audio_status = StageStatus.NEW ∧
        b.audio_status = StageStatus.READY)) := by
  rcases h with rfl | ⟨hc, rfl⟩
  · exact ⟨rfl, rfl, rfl, rfl, rfl, rfl, fun t => ⟨rfl, rfl⟩, Or.inl rfl⟩
  · have hcc : a.script_status = StageStatus.DONE ∧ a.audio_status = StageStatus.NEW := by
      simpa [audioCond] using hc
    exact ⟨rfl, rfl, rfl, rfl, rfl, rfl,
      fun t => ⟨by cases t <;> rfl, by cases t <;> rfl⟩, Or.inr ⟨hcc.1, hcc.2, rfl⟩⟩

theorem pass3_facts {b c : Job}
    (h : c = b ∨ (visualsCond b = true ∧ c = promoteVisuals b)) :
    c.script_status = b.script_status ∧ c.audio_status = b.audio_status ∧
    c.render_status = b.render_status ∧ c.id = b.id ∧ c.attempts = b.attempts ∧
    c.last_error = b.last_error ∧
    (∀ t : Stage, c.leaseOwner t = b.leaseOwner t ∧ c.leaseExpiresAt t = b.leaseExpiresAt t) ∧
    (c.visuals_status = b.visuals_status ∨
      (b.audio_status = StageStatus.DONE ∧ b.visuals_status = StageStatus.NEW ∧
        c.visuals_status = StageStatus.READY)) := by
  rcases h with rfl | ⟨hc, rfl⟩
  · exact ⟨rfl, rfl, rfl, rfl, rfl, rfl, fun t => ⟨rfl, rfl⟩, Or.inl rfl⟩
  · have hcc : b.audio_status = StageStatus.DONE ∧ b.visuals_status = StageStatus.NEW := by
      simpa [visualsCond] using hc
    exact ⟨rfl, rfl, rfl, rfl, rfl, rfl,
      fun t => ⟨by cases t <;> rfl, by cases t <;> rfl⟩, Or.inr ⟨hcc.1, hcc.2, rfl⟩⟩

theorem pass4_facts {c d : Job}
    (h : d = c ∨ (renderCond c = true ∧ d = promoteRender c)) :
    d.script_status = c.script_status ∧ d.audio_status = c.audio_status ∧
    d.visuals_status = c.visuals_status ∧ d.id = c.id ∧ d.attempts = c.attempts ∧
    d.last_error = c.last_error ∧
    (∀ t : Stage, d.leaseOwner t = c.leaseOwner t ∧ d.leaseExpiresAt t = c.leaseExpiresAt t) ∧
    (d.render_status = c.render_status ∨
      (c.visuals_status = StageStatus.DONE ∧ c.render_status = StageStatus.NEW ∧
        d.render_status = StageStatus.READY)) := by
  rcases h with rfl | ⟨hc, rfl⟩
  · exact ⟨rfl, rfl, rfl, rfl, rfl, rfl, fun t => ⟨rfl, rfl⟩, Or.inl rfl⟩
  · have hcc : c.visuals_status = StageStatus.DONE ∧ c.render_status = StageStatus.NEW := by
      simpa [renderCond] using hc
    exact ⟨rfl, rfl, rfl, rfl, rfl, rfl,
      fun t => ⟨by cases t <;> rfl, by cases t <;> rfl⟩, Or.inr ⟨hcc.1, hcc.2, rfl⟩⟩

theorem tickFrame_of_chain {j a b c d : Job}
    (h1 : a = j ∨ (scriptCond j = true ∧ a = promoteScript j))
    (h2 : b = a ∨ (audioCond a = true ∧ b = promoteAudio a))
    (h3 : c = b ∨ (visualsCond b = true ∧ c = promoteVisuals b))
    (h4 : d = c ∨ (renderCond c = true ∧ d = promoteRender c)) :
    tickFrame j d := by
  obtain ⟨a2, a3, a4, aid, aat, ale, alease, ascr⟩ := pass1_facts h1
  obtain ⟨b1, b3, b4, bid, bat, ble, blease, baud⟩ := pass2_facts h2
  obtain ⟨c1, c2, c4, cid, cat, cle, clease, cvis⟩ := pass3_facts h3
  obtain ⟨d1, d2, d3, did, dat, dle, dlease, dren⟩ := pass4_facts h4
  refine ⟨by rw [did, cid, bid, aid], by rw [dat, cat, bat, aat],
    by rw [dle, cle, ble, ale], ?_, ?_⟩
  · intro t
    exact ⟨by rw [(dlease t).1, (clease t).1, (blease t).1, (alease t).1],
      by rw [(dlease t).2, (clease t).2, (blease t).2, (alease t).2]⟩
  · intro s
    cases s with
    | script =>
      show d.script_status = j.script_status ∨
        (j.script_status = StageStatus.NEW ∧ d.script_status = StageStatus.READY ∧
          (Stage.script = Stage.script ∨ j.script_status = StageStatus.DONE))
      rcases ascr with he | ⟨hn, hr⟩
      · exact Or.inl (by rw [d1, c1, b1, he])
      · exact Or.inr ⟨hn, by rw [d1, c1, b1, hr], Or.inl rfl⟩
    | audio =>
      show d.audio_status = j.audio_status ∨
        (j.audio_status = StageStatus.NEW ∧ d.audio_status = StageStatus.READY ∧
          (Stage.audio = Stage.script ∨ j.script_status = StageStatus.DONE))
      rcases baud with he | ⟨hsD, haN, hbR⟩
      · exact Or.inl (by rw [d2, c2, he, a2])
      · have hjs : j.script_status = StageStatus.DONE := by
          rcases ascr with he' | ⟨_, he'⟩
          · rw [← he']
            exact hsD
          · rw [he'] at hsD
            cases hsD
        exact Or.inr ⟨by rw [← a2]; exact haN, by rw [d2, c2]; exact hbR, Or.inr hjs⟩
    | visuals =>
      show d.visuals_status = j.visuals_status ∨
        (j.visuals_status = StageStatus.NEW ∧ d.visuals_status = StageStatus.READY ∧
          (Stage.visuals = Stage.script ∨ j.audio_status = StageStatus.DONE))
      rcases cvis with he | ⟨hbD, hvN, hcR⟩
      · exact Or.inl (by rw [d3, he, b3, a3])
      · have hja : j.audio_status = StageStatus.DONE := by
          rcases baud with he' | ⟨_, _, he'⟩
          · rw [← a2, ← he']
            exact hbD
          · rw [he'] at hbD
            cases hbD
        refine Or.inr ⟨?_, by rw [d3]; exact hcR, Or.inr hja⟩
        rw [← a3, ← b3]
        exact hvN
    | render =>
      show d.render_status = j.render_status ∨
        (j.render_status = StageStatus.NEW ∧ d.render_status = StageStatus.READY ∧
          (Stage.render = Stage.script ∨ j.visuals_status = StageStatus.DONE))
      rcases dren with he | ⟨hcD, hrN, hdR⟩
      · exact Or.inl (by rw [he, c4, b4, a4])
      · have hjv : j.visuals_status = StageStatus.DONE := by
          rcases cvis with he' | ⟨_, _, he'⟩
          · rw [← a3, ← b3, ← he']
            exact hcD
          · rw [he'] at hcD
            cases hcD
        refine Or.inr ⟨?_, hdR, Or.inr hjv⟩
        rw [← a4, ← b4, ← c4]
        exact hrN

/-! ## Claim C6: counting helpers -/

theorem countP_mono {γ : Type} (f g : γ → Bool) :
    ∀ l : List γ, (∀ x ∈ l, f x = true → g x = true) → l.countP f ≤ l.countP g := by
  intro l
  induction l with
  | nil =>
    intro
    simp
  | cons a rest ih =>
    intro h
    rw [List.countP_cons, List.countP_cons]
    have hrest := ih (fun x hx => h x (List.mem_cons_of_mem a hx))
    by_cases ha : f a = true
    · have hga := h a (List.mem_cons_self a rest) ha
      simp only [ha, hga, if_pos]
      omega
    · have ha' : f a = false := by simpa using ha
      simp only [ha', Bool.false_eq_true, if_neg, Nat.add_zero, not_false_eq_true]
      exact le_trans hrest (Nat.le_add_right _ _)

theorem promoteUpTo_count (cond : Job → Bool) (upd : Job → Job) :
    ∀ (l : List Job) (k : Nat),
      ((l.zip (promoteUpTo cond upd l k).2).countP fun p => decide (p.1 ≠ p.2)) ≤ k := by
  intro l
  induction l with
  | nil =>
    intro k
    simp [promoteUpTo_nil]
  | cons j rest ih =>
    intro k
    cases k with
    | zero =>
      rw [promoteUpTo_zero]
      rw [zip_self_countP_ne]
    | succ k' =>
      by_cases hc : cond j
      · rw [promoteUpTo_cons_pos cond upd j rest k' hc, List.zip_cons_cons, List.countP_cons]
        have hrec := ih k'
        have hone : (if decide (((j, upd j) : Job × Job).1 ≠ ((j, upd j) : Job × Job).2) = true
            then 1 else 0) ≤ 1 := by
          split
          · exact le_refl 1
          · exact Nat.zero_le 1
        omega
      · rw [promoteUpTo_cons_neg cond upd j rest k' (by simpa using hc), List.zip_cons_cons,
          List.countP_cons]
        have hrec := ih (k' + 1)
        have hz : (decide (((j, j) : Job × Job).1 ≠ ((j, j) : Job × Job).2)) = false := by
          simp
        rw [hz]
        simp only [Bool.false_eq_true, if_neg, Nat.add_zero, not_false_eq_true]
        omega

theorem countP_zip_congr {α : Type} {P Q : α → α → Prop} (f g : α × α → Bool)
    (hfg : ∀ a1 a2 b1 b2, P a1 a2 → Q b1 b2 → f (a1, b1) = g (a2, b2)) :
    ∀ {l1 l2 m1 m2 : List α}, List.Forall₂ P l1 l2 → List.Forall₂ Q m1 m2 →
      (l1.zip m1).countP f = (l2.zip m2).countP g := by
  intro l1 l2 m1 m2 hP
  induction hP generalizing m1 m2 with
  | nil =>
    intro hQ
    simp
  | cons hp _ ih =>
    intro hQ
    cases hQ with
    | nil => simp
    | cons hq ht =>
      rw [List.zip_cons_cons, List.zip_cons_cons, List.countP_cons, List.countP_cons,
        ih ht, hfg _ _ _ _ hp hq]

theorem forall2_flip {α β : Type} {R : α → β → Prop} :
    ∀ {l : List α} {m : List β}, List.Forall₂ R l m → List.Forall₂ (fun b a => R a b) m l := by
  intro l m h
  induction h with
  | nil => exact List.Forall₂.nil
  | cons hr _ ih => exact List.Forall₂.cons hr ih

/-- C6: one orchestrator tick only promotes stage statuses from NEW to
READY — script unconditionally, audio/visuals/render only when the
predecessor's status is DONE — with at most 50 promotions per stage
per tick; it never moves a stage past READY and never changes ids,
lease fields, attempts or last_error. -/
theorem orchestrator_tick_spec (db : List Job) :
    List.Forall₂ tickFrame db (orchestrator_tick db).2 ∧
    ∀ s : Stage, ((db.zip (orchestrator_tick db).2).countP
      fun p => decide (p.1.status s ≠ p.2.status s)) ≤ 50 := by
  suffices h : List.Forall₂ tickFrame db
      (promoteUpTo renderCond promoteRender
        (promoteUpTo visualsCond promoteVisuals
          (promoteUpTo audioCond promoteAudio
            (promoteUpTo scriptCond promoteScript db 50).2 50).2 50).2 50).2 ∧
      ∀ s : Stage, ((db.zip
        (promoteUpTo renderCond promoteRender
          (promoteUpTo visualsCond promoteVisuals
            (promoteUpTo audioCond promoteAudio
              (promoteUpTo scriptCond promoteScript db 50).2 50).2 50).2 50).2).countP
        fun p => decide (p.1.status s ≠ p.2.status s)) ≤ 50 by
    exact h
  have f1 := promoteUpTo_shape scriptCond promoteScript db 50
  have n1 := promoteUpTo_count scriptCond promoteScript db 50
  set db1 := (promoteUpTo scriptCond promoteScript db 50).2 with hdb1
  have f2 := promoteUpTo_shape audioCond promoteAudio db1 50
  have n2 := promoteUpTo_count audioCond promoteAudio db1 50
  set db2 := (promoteUpTo audioCond promoteAudio db1 50).2 with hdb2
  have f3 := promoteUpTo_shape visualsCond promoteVisuals db2 50
  have n3 := promoteUpTo_count visualsCond promoteVisuals db2 50
  set db3 := (promoteUpTo visualsCond promoteVisuals db2 50).2 with hdb3
  have f4 := promoteUpTo_shape renderCond promoteRender db3 50
  have n4 := promoteUpTo_count renderCond promoteRender db3 50
  set db4 := (promoteUpTo renderCond promoteRender db3 50).2 with hdb4
  have g12 := forall2_trans
    (T := fun x z => ∃ y, (y = x ∨ (scriptCond x = true ∧ y = promoteScript x)) ∧
      (z = y ∨ (audioCond y = true ∧ z = promoteAudio y)))
    (fun x y z hxy hyz => ⟨y, hxy, hyz⟩) f1 f2
  have g123 := forall2_trans
    (T := fun x w => ∃ y z, (y = x ∨ (scriptCond x = true ∧ y = promoteScript x)) ∧
      (z = y ∨ (audioCond y = true ∧ z = promoteAudio y)) ∧
      (w = z ∨ (visualsCond z = true ∧ w = promoteVisuals z)))
    (fun x y w hxy hyw => by
      obtain ⟨a, ha1, ha2⟩ := hxy
      exact ⟨a, y, ha1, ha2, hyw⟩) g12 f3
  have gAll := forall2_trans (T := tickFrame)
    (fun x y w hxy hyw => by
      obtain ⟨a, b, h1, h2, h3⟩ := hxy
      exact tickFrame_of_chain h1 h2 h3 hyw) g123 f4
  refine ⟨gAll, ?_⟩
  have p1A : List.Forall₂ (fun x y => y.audio_status = x.audio_status) db db1 :=
    f1.imp (fun x y h => (pass1_facts h).1)
  have p1V : List.Forall₂ (fun x y => y.visuals_status = x.visuals_status) db db1 :=
    f1.imp (fun x y h => (pass1_facts h).2.1)
  have p1R : List.Forall₂ (fun x y => y.render_status = x.render_status) db db1 :=
    f1.imp (fun x y h => (pass1_facts h).2.2.1)
  have p2S : List.Forall₂ (fun x y => y.script_status = x.script_status) db1 db2 :=
    f2.imp (fun x y h => (pass2_facts h).1)
  have p2V : List.Forall₂ (fun x y => y.visuals_status = x.visuals_status) db1 db2 :=
    f2.imp (fun x y h => (pass2_facts h).2.1)
  have p2R : List.Forall₂ (fun x y => y.render_status = x.render_status) db1 db2 :=
    f2.imp (fun x y h => (pass2_facts h).2.2.1)
  have p3S : List.Forall₂ (fun x y => y.script_status = x.script_status) db2 db3 :=
    f3.imp (fun x y h => (pass3_facts h).1)
  have p3A : List.Forall₂ (fun x y => y.audio_status = x.audio_status) db2 db3 :=
    f3.imp (fun x y h => (pass3_facts h).2.1)
  have p3R : List.Forall₂ (fun x y => y.render_status = x.render_status) db2 db3 :=
    f3.imp (fun x y h => (pass3_facts h).2.2.1)
  have p4S : List.Forall₂ (fun x y => y.script_status = x.script_status) db3 db4 :=
    f4.imp (fun x y h => (pass4_facts h).1)
  have p4A : List.Forall₂ (fun x y => y.audio_status = x.audio_status) db3 db4 :=
    f4.imp (fun x y h => (pass4_facts h).2.1)
  have p4V : List.Forall₂ (fun x y => y.visuals_status = x.visuals_status) db3 db4 :=
    f4.imp (fun x y h => (pass4_facts h).2.2.1)
  have tS : List.Forall₂ (fun x y => y.script_status = x.script_status) db1 db4 :=
    forall2_trans (T := fun x z => z.script_status = x.script_status)
      (fun a b c hab hbc => hbc.trans hab)
      (forall2_trans (T := fun x z => z.script_status = x.script_status)
        (fun a b c hab hbc => hbc.trans hab) p2S p3S) p4S
  have tA : List.Forall₂ (fun x y => y.audio_status = x.audio_status) db2 db4 :=
    forall2_trans (T := fun x z => z.audio_status = x.audio_status)
      (fun a b c hab hbc => hbc.trans hab) p3A p4A
  have tV : List.Forall₂ (fun x y => y.visuals_status = x.visuals_status) db db2 :=
    forall2_trans (T := fun x z => z.visuals_status = x.visuals_status)
      (fun a b c hab hbc => hbc.trans hab) p1V p2V
  have tR : List.Forall₂ (fun x y => y.render_status = x.render_status) db db3 :=
    forall2_trans (T := fun x z => z.render_status = x.render_status)
      (fun a b c hab hbc => hbc.trans hab)
      (forall2_trans (T := fun x z => z.render_status = x.render_status)
        (fun a b c hab hbc => hbc.trans hab) p1R p2R) p3R
  have hmono : ∀ (s : Stage) (l m : List Job),
      ((l.zip m).countP fun p => decide (p.1.status s ≠ p.2.status s)) ≤
        ((l.zip m).countP fun p => decide (p.1 ≠ p.2)) := by
    intro s l m
    refine countP_mono _ _ _ ?_
    intro p _ hp
    have hne := of_decide_eq_true hp
    exact decide_eq_true (fun hcontra => hne (by rw [hcontra]))
  intro s
  cases s with
  | script =>
    have hfg : ∀ a1 a2 b1 b2 : Job, a1 = a2 → b1.script_status = b2.script_status →
        decide (a1.status Stage.script ≠ b1.status Stage.script) =
          decide (a2.status Stage.script ≠ b2.status Stage.script) := by
      intro a1 a2 b1 b2 hP hQ
      subst hP
      have hb : b1.status Stage.script = b2.status Stage.script := hQ
      exact decide_eq_decide.mpr (by rw [hb])
    have heq := countP_zip_congr
      (fun p : Job × Job => decide (p.1.status Stage.script ≠ p.2.status Stage.script))
      (fun p : Job × Job => decide (p.1.status Stage.script ≠ p.2.status Stage.script))
      (fun a1 a2 b1 b2 hP hQ => hfg a1 a2 b1 b2 hP hQ)
      (forall2_refl_of (fun (a : Job) => rfl) db) (forall2_flip tS)
    rw [heq]
    exact le_trans (hmono Stage.script db db1) n1
  | audio =>
    have hfg : ∀ a1 a2 b1 b2 : Job, a2.audio_status = a1.audio_status →
        b1.audio_status = b2.audio_status →
        decide (a1.status Stage.audio ≠ b1.status Stage.audio) =
          decide (a2.status Stage.audio ≠ b2.status Stage.audio) := by
      intro a1 a2 b1 b2 hP hQ
      have ha : a1.status Stage.audio = a2.status Stage.audio := hP.symm
      have hb : b1.status Stage.audio = b2.status Stage.audio := hQ
      exact decide_eq_decide.mpr (by rw [ha, hb])
    have heq := countP_zip_congr
      (fun p : Job × Job => decide (p.1.status Stage.audio ≠ p.2.status Stage.audio))
      (fun p : Job × Job => decide (p.1.status Stage.audio ≠ p.2.status Stage.audio))
      (fun a1 a2 b1 b2 hP hQ => hfg a1 a2 b1 b2 hP hQ)
      p1A (forall2_flip tA)
    rw [heq]
    exact le_trans (hmono Stage.audio db1 db2) n2
  | visuals =>
    have hfg : ∀ a1 a2 b1 b2 : Job, a2.visuals_status = a1.visuals_status →
        b1.visuals_status = b2.visuals_status →
        decide (a1.status Stage.visuals ≠ b1.status Stage.visuals) =
          decide (a2.status Stage.visuals ≠ b2.status Stage.visuals) := by
      intro a1 a2 b1 b2 hP hQ
      have ha : a1.status Stage.visuals = a2.status Stage.visuals := hP.symm
      have hb : b1.status Stage.visuals = b2.status Stage.visuals := hQ
      exact decide_eq_decide.mpr (by rw [ha, hb])
    have heq := countP_zip_congr
      (fun p : Job × Job => decide (p.1.status Stage.visuals ≠ p.2.status Stage.visuals))
      (fun p : Job × Job => decide (p.1.status Stage.visuals ≠ p.2.status Stage.visuals))
      (fun a1 a2 b1 b2 hP hQ => hfg a1 a2 b1 b2 hP hQ)
      tV (forall2_flip p4V)
    rw [heq]
    exact le_trans (hmono Stage.visuals db2 db3) n3
  | render =>
    have hfg : ∀ a1 a2 b1 b2 : Job, a2.render_status = a1.render_status → b1 = b2 →
        decide (a1.status Stage.render ≠ b1.status Stage.render) =
          decide (a2.status Stage.render ≠ b2.status Stage.render) := by
      intro a1 a2 b1 b2 hP hQ
      subst hQ
      have ha : a1.status Stage.render = a2.status Stage.render := hP.symm
      exact decide_eq_decide.mpr (by rw [ha])
    have heq := countP_zip_congr
      (fun p : Job × Job => decide (p.1.status Stage.render ≠ p.2.status Stage.render))
      (fun p : Job × Job => decide (p.1.status Stage.render ≠ p.2.status Stage.render))
      (fun a1 a2 b1 b2 hP hQ => hfg a1 a2 b1 b2 hP hQ)
      tR (forall2_refl_of (fun (a : Job) => rfl) db4)
    rw [heq]
    exact le_trans (hmono Stage.render db3 db4) n4

/-- Witness for C6: the per-stage promotion bound evaluated on a
singleton table holding one fresh job. -/
theorem orchestrator_tick_spec_witness :
    (([create_new_job 0].zip (orchestrator_tick [create_new_job 0]).2).countP
      fun p => decide (p.1.status Stage.script ≠ p.2.status Stage.script)) ≤ 50 :=
  (orchestrator_tick_spec [create_new_job 0]).2 Stage.script
